import Mathlib

/-!
# Verification development for `uptd`

A shallow embedding of the Go package `uptd` (`updater.go`, `github.go`):
the update checker `Uptd` with `New` and `Check`, and the GitHub release
provider `GithubProvider` with `Latest`.

Conventions of the embedding.

* A Go `string` is a Lean `String`; helper functions work on its list of
  characters so that they are structurally recursive and evaluate.
* A Go return pair `(T, error)` is a Lean pair `T × Option GoError`, where
  `none` is the `nil` error. Both components are kept, because the claims
  speak about the value that accompanies an error.
* A call that reaches outside the program (a provider lookup) is a function
  of an explicit world state `σ` and returns the next world state.
* A Go pointer that may be `nil` is an `Option`.
-/

namespace uptd

/-! ## Errors -/

/-- Go `error` values that the package can return. `invalidVersion` stands for
the errors built inside `semver.Parse`, `errPersonalAccessTokenIsMissing` for the
package variable of that name, which `github.go` returns and which is declared
outside the given source files, and `errorsNew msg` for any `errors.New(msg)`
value, which is what providers and lookup functions return in the tests. -/
inductive GoError where
  | invalidVersion (detail : String)
  | errPersonalAccessTokenIsMissing
  | errorsNew (msg : String)
  deriving DecidableEq, Repr

/-! ## Strings (`strings`, `strconv`) -/

/-- Go `strings.HasPrefix(s, p)`. -/
def stringsHasPrefix (s p : String) : Bool :=
  p.data.isPrefixOf s.data

/-- Go `strings.TrimPrefix(s, p)`: `s` without the leading `p` when `s` starts
with `p`, and `s` itself otherwise. -/
def stringsTrimPrefix (s p : String) : String :=
  if stringsHasPrefix s p then String.mk (s.data.drop p.data.length) else s

/-- Go `strings.IndexRune(s, c)` on the characters of `s`; `none` is Go's `-1`. -/
def indexRune : List Char → Char → Option Nat
  | [], _ => none
  | x :: xs, c => if x = c then some 0 else (indexRune xs c).map Nat.succ

/-- Go `strings.Split(s, sep)` for a one-character separator: always at least
one piece. -/
def splitChars : List Char → Char → List (List Char)
  | [], _ => [[]]
  | x :: xs, c =>
    if x = c then [] :: splitChars xs c
    else
      match splitChars xs c with
      | [] => [[x]]
      | h :: t => (x :: h) :: t

/-- Go `strings.SplitN(s, sep, n)` for a one-character separator and `n ≥ 0`:
at most `n` pieces, the last of which is the unsplit remainder. -/
def splitCharsN : List Char → Char → Nat → List (List Char)
  | _, _, 0 => []
  | s, _, 1 => [s]
  | s, c, n + 2 =>
    match indexRune s c with
    | none => [s]
    | some i => s.take i :: splitCharsN (s.drop (i + 1)) c (n + 1)

end uptd

namespace uptd.semver

/-! ## Semantic versions (`github.com/blang/semver`) -/

/-- Modelled from the spec: part of `github.com/blang/semver`, which is not among
the source files. The digits `0123456789`. -/
def numbers : List Char := "0123456789".data

/-- Modelled from the spec: part of `github.com/blang/semver`, which is not among
the source files. The letters and the hyphen. -/
def alphas : List Char :=
  "abcdefghijklmnopqrstuvwxyzABCDEFGHIJKLMNOPQRSTUVWXYZ-".data

/-- Modelled from the spec: part of `github.com/blang/semver`, which is not among
the source files. The characters allowed in an identifier. -/
def alphanum : List Char := alphas ++ numbers

/-- Modelled from the spec: part of `github.com/blang/semver`, which is not among
the source files. Whether every character of `s` is in `set`. -/
def containsOnly (s set : List Char) : Bool :=
  s.all (fun c => set.contains c)

/-- Modelled from the spec: part of `github.com/blang/semver`, which is not among
the source files. Whether `s` has more than one character and starts
with `0`. -/
def hasLeadingZeroes (s : List Char) : Bool :=
  decide (1 < s.length) && s.head? == some '0'

/-- Modelled from the spec: part of `github.com/blang/semver`, which is not among
the source files. The value of a decimal digit. -/
def digitValue (c : Char) : Nat := c.toNat - '0'.toNat

/-- Modelled from the spec: the reading of a decimal number inside `semver.Parse`,
part of `github.com/blang/semver`, which is not among the source files. It
fails on the empty string and on any character that is not a digit. The result
is a natural number with no upper bound, as the spec gives none. -/
def parseUint (s : List Char) : Option Nat :=
  if s.isEmpty || !containsOnly s numbers then none
  else some (s.foldl (fun acc c => 10 * acc + digitValue c) 0)

/-- Modelled from the spec: part of `github.com/blang/semver`, which is not among
the source files. One dot-separated identifier of the prerelease part:
numeric or alphanumeric. -/
structure PRVersion where
  VersionStr : String
  VersionNum : Nat
  IsNum : Bool
  deriving DecidableEq, Repr

instance : Inhabited PRVersion := ⟨⟨"", 0, false⟩⟩

/-- Modelled from the spec: the package `github.com/blang/semver` is imported by
`updater.go` and `github.go` but is not among the source files. A version is
`MAJOR.MINOR.PATCH[-PRERELEASE][+BUILD]`: three numbers, the prerelease
identifiers and the build metadata. The numbers are natural numbers; the spec
puts no bound on them. -/
structure Version where
  Major : Nat
  Minor : Nat
  Patch : Nat
  Pre : List PRVersion
  Build : List String
  deriving DecidableEq, Repr

/-- The Go zero value `semver.Version{}`. -/
instance : Inhabited Version := ⟨⟨0, 0, 0, [], []⟩⟩

/-- Modelled from the spec: `semver.NewPRVersion`, the parser of one prerelease
identifier. A run of digits is a number and must not have a leading zero; a
run of letters, digits and hyphens is an alphanumeric identifier; anything
else, the empty string included, is an error. -/
def NewPRVersion (s : List Char) : PRVersion × Option GoError :=
  if s.isEmpty then
    (default, some (.invalidVersion "Prerelease is empty"))
  else if containsOnly s numbers then
    if hasLeadingZeroes s then
      (default, some (.invalidVersion
        "Numeric PreRelease version must not contain leading zeroes"))
    else
      match parseUint s with
      | none => (default, some (.invalidVersion "invalid syntax"))
      | some num => (⟨"", num, true⟩, none)
  else if containsOnly s alphanum then
    (⟨String.mk s, 0, false⟩, none)
  else
    (default, some (.invalidVersion "Invalid character(s) found in prerelease"))

/-- Modelled from the spec: part of `github.com/blang/semver`, which is not among
the source files. The loop of `semver.Parse` over the prerelease identifiers: each is parsed
in turn and the first error ends the parse. -/
def parsePre : List (List Char) → List PRVersion × Option GoError
  | [] => ([], none)
  | p :: ps =>
    match NewPRVersion p with
    | (_, some e) => ([], some e)
    | (pr, none) =>
      match parsePre ps with
      | (_, some e) => ([], some e)
      | (prs, none) => (pr :: prs, none)

/-- Modelled from the spec: part of `github.com/blang/semver`, which is not among
the source files. The loop of `semver.Parse` over the build identifiers: each must be a
non-empty run of letters, digits and hyphens. -/
def parseBuild : List (List Char) → List String × Option GoError
  | [] => ([], none)
  | b :: bs =>
    if b.isEmpty then ([], some (.invalidVersion "Build meta data is empty"))
    else if !containsOnly b alphanum then
      ([], some (.invalidVersion "Invalid character(s) found in build meta data"))
    else
      match parseBuild bs with
      | (_, some e) => ([], some e)
      | (strs, none) => (String.mk b :: strs, none)

/-- Modelled from the spec: part of `github.com/blang/semver`, which is not among
the source files. One of the three numbers of a version: digits only, no
leading zero. -/
def parseNumber (which : String) (s : List Char) : Nat × Option GoError :=
  if !containsOnly s numbers then
    (0, some (.invalidVersion ("Invalid character(s) found in " ++ which ++ " number")))
  else if hasLeadingZeroes s then
    (0, some (.invalidVersion (which ++ " number must not contain leading zeroes")))
  else
    match parseUint s with
    | none => (0, some (.invalidVersion "invalid syntax"))
    | some n => (n, none)

/-- Modelled from the spec: part of `github.com/blang/semver`, which is not among
the source files. The step of `semver.Parse` that takes a suffix off the patch
string: when
`mark` (`+` for build metadata, `-` for the prerelease) occurs, what follows
its first occurrence is split at the dots into identifiers and what precedes
it is kept; when it does not occur there are no identifiers. -/
def cutIdentifiers (patchStr : List Char) (mark : Char) : List Char × List (List Char) :=
  match indexRune patchStr mark with
  | some i => (patchStr.take i, splitChars (patchStr.drop (i + 1)) '.')
  | none => (patchStr, [])

/-- Modelled from the spec: `semver.Parse`, the parser of
`MAJOR.MINOR.PATCH[-PRERELEASE][+BUILD]`. The string is cut at its first two
dots into major, minor and the rest; the rest is cut at its first `+` into
patch-and-prerelease and build metadata, and that at its first `-` into patch
and prerelease; prerelease and build are lists of dot-separated identifiers.
A failure returns the zero version with the error. -/
def Parse (s : String) : Version × Option GoError :=
  if s.data.isEmpty then
    (default, some (.invalidVersion "Version string empty"))
  else
    match splitCharsN s.data '.' 3 with
    | [p0, p1, p2] =>
      match parseNumber "Major" p0 with
      | (_, some e) => (default, some e)
      | (major, none) =>
      match parseNumber "Minor" p1 with
      | (_, some e) => (default, some e)
      | (minor, none) =>
      let withoutBuild := cutIdentifiers p2 '+'
      let withoutPre := cutIdentifiers withoutBuild.1 '-'
      match parseNumber "Patch" withoutPre.1 with
      | (_, some e) => (default, some e)
      | (patch, none) =>
      match parsePre withoutPre.2 with
      | (_, some e) => (default, some e)
      | (pre, none) =>
      match parseBuild withoutBuild.2 with
      | (_, some e) => (default, some e)
      | (bld, none) => (⟨major, minor, patch, pre, bld⟩, none)
    | _ => (default, some (.invalidVersion "No Major.Minor.Patch elements found"))

/-- Modelled from the spec: `semver.New`, which parses like `semver.Parse` and
returns a pointer to the version, `nil` on failure. -/
def New (s : String) : Option Version × Option GoError :=
  match Parse s with
  | (_, some e) => (none, some e)
  | (v, none) => (some v, none)

/-- Go's `a > b` on strings, which the comparison of alphanumeric identifiers
uses: lexical order by bytes, which for UTF-8 text is lexical order by
characters. -/
def stringGreater : List Char → List Char → Bool
  | [], _ => false
  | _ :: _, [] => true
  | x :: xs, y :: ys =>
    if y.toNat < x.toNat then true
    else if x.toNat < y.toNat then false
    else stringGreater xs ys

/-- Modelled from the spec: part of `github.com/blang/semver`, which is not among
the source files. Precedence of two prerelease identifiers: `-1`, `0` or `1`. A number is
lower than an alphanumeric identifier; numbers compare numerically and
alphanumeric identifiers lexically. -/
def PRVersion.Compare (v o : PRVersion) : Int :=
  if v.IsNum && !o.IsNum then -1
  else if !v.IsNum && o.IsNum then 1
  else if v.IsNum && o.IsNum then
    if v.VersionNum = o.VersionNum then 0
    else if v.VersionNum > o.VersionNum then 1
    else -1
  else
    if v.VersionStr = o.VersionStr then 0
    else if stringGreater v.VersionStr.data o.VersionStr.data then 1
    else -1

/-- Modelled from the spec: part of `github.com/blang/semver`, which is not among
the source files. The identifier-by-identifier comparison of two prerelease
lists: the first
difference decides, and when one list is a proper beginning of the other the
longer one is the greater. -/
def comparePre : List PRVersion → List PRVersion → Int
  | [], [] => 0
  | [], _ :: _ => -1
  | _ :: _, [] => 1
  | a :: as, b :: bs =>
    let comp := a.Compare b
    if comp = 0 then comparePre as bs
    else if comp = 1 then 1
    else -1

/-- Modelled from the spec: `semver.Version.Compare`, semantic-versioning
precedence as `-1`, `0` or `1`. Major, then minor, then patch are compared
numerically; a version with prerelease identifiers is lower than the same
numbers without them; build metadata is ignored. -/
def Version.Compare (v o : Version) : Int :=
  if v.Major ≠ o.Major then
    if v.Major > o.Major then 1 else -1
  else if v.Minor ≠ o.Minor then
    if v.Minor > o.Minor then 1 else -1
  else if v.Patch ≠ o.Patch then
    if v.Patch > o.Patch then 1 else -1
  else if v.Pre.length = 0 ∧ o.Pre.length = 0 then 0
  else if v.Pre.length = 0 ∧ o.Pre.length > 0 then 1
  else if v.Pre.length > 0 ∧ o.Pre.length = 0 then -1
  else comparePre v.Pre o.Pre

/-- Modelled from the spec: part of `github.com/blang/semver`, which is not among
the source files. The relation `Version.GT`: `v` is strictly greater than `o`. -/
def Version.GT (v o : Version) : Bool := v.Compare o == 1

/-- Modelled from the spec: part of `github.com/blang/semver`, which is not among
the source files. The relation `Version.LT`: `v` is strictly lower than `o`. -/
def Version.LT (v o : Version) : Bool := v.Compare o == -1

/-- Modelled from the spec: part of `github.com/blang/semver`, which is not among
the source files. The relation `Version.Equals`: equal precedence. -/
def Version.Equals (v o : Version) : Bool := v.Compare o == 0

/-! ### The grammar of a semantic version string, as the spec words it -/

/-- A numeric field (`MAJOR`, `MINOR`, `PATCH`): a non-empty run of digits with
no leading zero. -/
def isNumericField (s : List Char) : Bool :=
  !s.isEmpty && containsOnly s numbers && !hasLeadingZeroes s

/-- A prerelease identifier: a non-empty run of letters, digits and hyphens
which, when it is all digits, has no leading zero. -/
def isPrereleaseIdentifier (s : List Char) : Bool :=
  !s.isEmpty && containsOnly s alphanum &&
    !(containsOnly s numbers && hasLeadingZeroes s)

/-- A build identifier: a non-empty run of letters, digits and hyphens. -/
def isBuildIdentifier (s : List Char) : Bool :=
  !s.isEmpty && containsOnly s alphanum

/-- Identifiers written one after the other with a dot between them. -/
def joinDots : List (List Char) → List Char
  | [] => []
  | [a] => a
  | a :: b :: rest => a ++ '.' :: joinDots (b :: rest)

/-- An optional suffix: nothing when there are no identifiers, and otherwise the
mark followed by the identifiers joined with dots. -/
def suffix (mark : Char) (ids : List (List Char)) : List Char :=
  if ids.isEmpty then [] else mark :: joinDots ids

/-- The spec's grammar `MAJOR.MINOR.PATCH[-PRERELEASE][+BUILD]`: the string is
three numeric fields separated by dots, then optionally `-` and dot-separated
prerelease identifiers, then optionally `+` and dot-separated build
identifiers. -/
def IsSemver (s : String) : Prop :=
  ∃ (major minor patch : List Char) (pre build : List (List Char)),
    isNumericField major = true ∧ isNumericField minor = true ∧
    isNumericField patch = true ∧
    (∀ p ∈ pre, isPrereleaseIdentifier p = true) ∧
    (∀ b ∈ build, isBuildIdentifier b = true) ∧
    s.data = major ++ '.' :: (minor ++ '.' :: (patch ++ (suffix '-' pre ++ suffix '+' build)))

end uptd.semver

namespace uptd

open semver

/-! ## Release metadata (`github.com/google/go-github`) -/

/-- Modelled from the spec: the type `github.RepositoryRelease` is declared in the
package go-github, which is not among the source files. It carries the release
metadata the package reads (tag, HTML URL, prerelease flag, draft flag) and the
`Name` field the tests set. Each field is a pointer; `none` is `nil`, the
absent field. -/
structure RepositoryRelease where
  TagName : Option String := none
  Name : Option String := none
  HTMLURL : Option String := none
  Draft : Option Bool := none
  Prerelease : Option Bool := none
  deriving DecidableEq, Repr

/-- Modelled from the spec: part of the package go-github, which is not among the
source files. The getter `GetTagName` on a release pointer: the empty string when the
pointer or the field is `nil`. -/
def GetTagName (r : Option RepositoryRelease) : String :=
  match r with
  | none => ""
  | some r => match r.TagName with
    | none => ""
    | some t => t

/-- Modelled from the spec: part of the package go-github, which is not among the
source files. The getter `GetHTMLURL` on a release pointer: the empty string when the
pointer or the field is `nil`. -/
def GetHTMLURL (r : Option RepositoryRelease) : String :=
  match r with
  | none => ""
  | some r => match r.HTMLURL with
    | none => ""
    | some u => u

/-- Modelled from the spec: part of the package go-github, which is not among the
source files. The getter `GetPrerelease` on a release pointer: `false` when the pointer or
the field is `nil`. -/
def GetPrerelease (r : Option RepositoryRelease) : Bool :=
  match r with
  | none => false
  | some r => match r.Prerelease with
    | none => false
    | some b => b

/-- Modelled from the spec: part of the package go-github, which is not among the
source files. The getter `GetDraft` on a release pointer: `false` when the pointer or the
field is `nil`. -/
def GetDraft (r : Option RepositoryRelease) : Bool :=
  match r with
  | none => false
  | some r => match r.Draft with
    | none => false
    | some b => b

/-! ## `updater.go`: responses, providers, the checker -/

/-- The struct `LatestResponse`, given back by the `Latest` method of a
provider. -/
structure LatestResponse where
  Version : semver.Version
  URL : String
  PreRelease : Bool
  deriving DecidableEq, Repr

/-- The Go zero value `LatestResponse{}`. -/
instance : Inhabited LatestResponse := ⟨⟨⟨0, 0, 0, [], []⟩, "", false⟩⟩

/-- The struct `CheckResponse`, given back by `Check`. -/
structure CheckResponse where
  NeedsUpdate : Bool
  Current : semver.Version
  Latest : LatestResponse
  deriving DecidableEq, Repr

/-- The Go zero value `CheckResponse{}`. -/
instance : Inhabited CheckResponse :=
  ⟨⟨false, ⟨0, 0, 0, [], []⟩, ⟨⟨0, 0, 0, [], []⟩, "", false⟩⟩⟩

/-- The interface `Provider`: one method, `Latest() (LatestResponse, error)`. The
call may reach the remote repository, so it reads a world state and returns
the next one. -/
structure Provider (σ : Type) where
  Latest : σ → (LatestResponse × Option GoError) × σ

/-- The struct `Uptd`. The provider is an interface value; `none` is the `nil`
interface of the zero value `Uptd{}`. -/
structure Uptd (σ : Type) where
  provider : Option (Provider σ)
  current : semver.Version

/-- The Go zero value `Uptd{}`. -/
instance (σ : Type) : Inhabited (Uptd σ) := ⟨⟨none, ⟨0, 0, 0, [], []⟩⟩⟩

/-- The function `New` of `updater.go`: parses the current version with
`semver.New` and stores it with the provider; a parse error is returned with
the zero `Uptd`. No provider call is made, so no world state is involved. The
outer `Option` is `none` when the call panics, which is the dereference
`*version` of a `nil` pointer returned without an error. -/
def New {σ : Type} (provider : Option (Provider σ)) (current : String) :
    Option (Uptd σ × Option GoError) :=
  match semver.New current with
  | (_, some err) => some (default, some err)
  | (none, none) => none
  | (some version, none) => some (⟨provider, version⟩, none)

/-- The method `Uptd.Check` of `updater.go`. The outer `Option` is `none` when the
call panics, which happens exactly when the provider is the `nil` interface.
Otherwise the provider is asked once; its error is returned as it is with the
zero `CheckResponse`, and on success the response is built from the stored
version and the provider's answer. -/
def Uptd.Check {σ : Type} (u : Uptd σ) (w : σ) :
    Option ((CheckResponse × Option GoError) × σ) :=
  match u.provider with
  | none => none
  | some p =>
    match p.Latest w with
    | ((_, some err), w1) => some ((default, some err), w1)
    | ((latest, none), w1) =>
      some ((⟨latest.Version.GT u.current && !latest.PreRelease, u.current, latest⟩,
        none), w1)

/-! ## `github.go`: the GitHub provider -/

/-- The function type `GetLatestFunc`: given owner and repository it returns a
release pointer and an error. The context argument is always
`context.Background()` and the `*github.Response` result is discarded by the
caller, so neither is kept; the remote call reads and returns a world state. -/
abbrev GetLatestFunc (σ : Type) : Type :=
  String → String → σ → (Option RepositoryRelease × Option GoError) × σ

/-- The struct `GithubProvider`. -/
structure GithubProvider (σ : Type) where
  latestFunc : GetLatestFunc σ
  owner : String
  repo : String

/-- The function `NewGithubProvider` of `github.go`. An empty token gives the
`nil` provider and `errPersonalAccessTokenIsMissing`. Otherwise the provider
is bound to owner and repo, with the lookup of the authenticated client;
`getLatestRelease token` stands for
`github.NewClient(client).Repositories.GetLatestRelease`, which is outside the
package. -/
def NewGithubProvider {σ : Type} (getLatestRelease : String → GetLatestFunc σ)
    (owner repo token : String) : Option (GithubProvider σ) × Option GoError :=
  if token = "" then (none, some .errPersonalAccessTokenIsMissing)
  else (some ⟨getLatestRelease token, owner, repo⟩, none)

/-- The method `GithubProvider.Latest` of `github.go`. The lookup is called once
with the bound owner and repo; its error is returned as it is with the zero
`LatestResponse`. Otherwise the tag name, without a leading `v`, is parsed; a
parse error is returned with the zero `LatestResponse`, and on success the
response carries the version, the HTML URL and `prerelease || draft`. -/
def GithubProvider.Latest {σ : Type} (u : GithubProvider σ) (w : σ) :
    (LatestResponse × Option GoError) × σ :=
  match u.latestFunc u.owner u.repo w with
  | ((_, some err), w1) => ((default, some err), w1)
  | ((release, none), w1) =>
    match semver.Parse (stringsTrimPrefix (GetTagName release) "v") with
    | (_, some err) => ((default, some err), w1)
    | (version, none) =>
      ((⟨version, GetHTMLURL release, GetPrerelease release || GetDraft release⟩,
        none), w1)

/-- A `*GithubProvider` used as a `Provider` (`var _ Provider = new(GithubProvider)`). -/
def GithubProvider.asProvider {σ : Type} (u : GithubProvider σ) : Provider σ :=
  ⟨u.Latest⟩

/-! ## The providers and lookups of the tests -/

/-- The `mockProvider` of `updater_test.go`: `Latest` returns the stored response
and error and touches nothing. -/
def mockProvider (res : LatestResponse) (err : Option GoError) : Provider Unit :=
  ⟨fun w => ((res, err), w)⟩

/-- The `newLatestMockFunc` of `github_test.go`: a lookup that returns the given
release and error whatever the owner and repo. -/
def newLatestMockFunc (rel : Option RepositoryRelease) (err : Option GoError) :
    GetLatestFunc Unit :=
  fun _ _ w => ((rel, err), w)

/-- The `newSemver` of the tests: the parsed version, the error dropped. -/
def newSemver (s : String) : semver.Version := (semver.Parse s).1

/-! ## Counting provider calls -/

/-- A provider with a call counter next to its world state: `Latest` answers as
`p.Latest` does and adds one to the counter. Running `Check` over it counts the
calls that `Check` makes to the provider's `Latest`. -/
def Provider.counted {σ : Type} (p : Provider σ) : Provider (σ × Nat) :=
  ⟨fun wn => ((p.Latest wn.1).1, ((p.Latest wn.1).2, wn.2 + 1))⟩

/-! ## Facts about the embedding -/

/-! ### Strings -/

/-- The index is `-1` exactly when the character does not occur. -/
theorem indexRune_eq_none_iff (l : List Char) (c : Char) : indexRune l c = none ↔ c ∉ l := by
  induction l with
  | nil => simp [indexRune]
  | cons x xs ih =>
    by_cases h : x = c
    · simp [indexRune, h]
    · have h' : ¬ c = x := fun e => h e.symm
      simp [indexRune, h, h', ih]

/-- The index of the first occurrence of `c` in `a ++ c :: b`, when `c` is not in `a`. -/
theorem indexRune_append (a b : List Char) (c : Char) (h : c ∉ a) :
    indexRune (a ++ c :: b) c = some a.length := by
  induction a with
  | nil => simp [indexRune]
  | cons x xs ih =>
    have hx : ¬ x = c := fun e => h (by simp [e])
    have hxs : c ∉ xs := fun e => h (by simp [e])
    simp [indexRune, hx, ih hxs]

/-- The string cut around the index of the first occurrence of `c`. -/
theorem indexRune_some (l : List Char) (c : Char) (i : Nat) (h : indexRune l c = some i) :
    c ∉ l.take i ∧ l = l.take i ++ c :: l.drop (i + 1) := by
  induction l generalizing i with
  | nil => simp [indexRune] at h
  | cons x xs ih =>
    by_cases hx : x = c
    · simp [indexRune, hx] at h
      subst h
      simp [hx]
    · simp only [indexRune, if_neg hx] at h
      cases hi : indexRune xs c with
      | none => simp [hi] at h
      | some j =>
        simp [hi] at h
        subst h
        obtain ⟨h1, h2⟩ := ih j hi
        have hx' : ¬ c = x := fun e => hx e.symm
        refine ⟨by simp [hx', h1], ?_⟩
        simp only [List.take_succ_cons, List.drop_succ_cons, List.cons_append]
        rw [← h2]

/-- A split has at least one piece. -/
theorem splitChars_ne_nil (l : List Char) (c : Char) : splitChars l c ≠ [] := by
  induction l with
  | nil => simp [splitChars]
  | cons x xs ih =>
    simp only [splitChars]
    split_ifs
    · simp
    · split <;> simp


/-- Joining when the first identifier starts with `x`. -/
theorem joinDots_cons_cons (x : Char) (h : List Char) (t : List (List Char)) :
    semver.joinDots ((x :: h) :: t) = x :: semver.joinDots (h :: t) := by
  cases t <;> simp [semver.joinDots]

/-- Joining the pieces of a split at dots gives the string back. -/
theorem joinDots_splitChars (l : List Char) : semver.joinDots (splitChars l '.') = l := by
  induction l with
  | nil => simp [splitChars, semver.joinDots]
  | cons x xs ih =>
    simp only [splitChars]
    split_ifs with hx
    · cases hs : splitChars xs '.' with
      | nil => exact absurd hs (splitChars_ne_nil xs '.')
      | cons b r =>
        rw [hs] at ih
        simp [semver.joinDots, ih, hx]
    · cases hs : splitChars xs '.' with
      | nil => exact absurd hs (splitChars_ne_nil xs '.')
      | cons b r =>
        rw [hs] at ih
        simp only []
        rw [joinDots_cons_cons, ih]

/-- A string without the separator is one piece. -/
theorem splitChars_of_not_mem (a : List Char) (c : Char) (h : c ∉ a) :
    splitChars a c = [a] := by
  induction a with
  | nil => simp [splitChars]
  | cons x xs ih =>
    have hx : ¬ x = c := fun e => h (by simp [e])
    have hxs : c ∉ xs := fun e => h (by simp [e])
    simp [splitChars, hx, ih hxs]

/-- The first piece of a split ends at the first separator. -/
theorem splitChars_append (a b : List Char) (c : Char) (h : c ∉ a) :
    splitChars (a ++ c :: b) c = a :: splitChars b c := by
  induction a with
  | nil => simp [splitChars]
  | cons x xs ih =>
    have hx : ¬ x = c := fun e => h (by simp [e])
    have hxs : c ∉ xs := fun e => h (by simp [e])
    simp [splitChars, hx, ih hxs]

/-- Splitting joined identifiers that hold no dot gives the identifiers back. -/
theorem splitChars_joinDots (ids : List (List Char)) (hne : ids ≠ [])
    (h : ∀ p ∈ ids, '.' ∉ p) : splitChars (semver.joinDots ids) '.' = ids := by
  induction ids with
  | nil => exact absurd rfl hne
  | cons a rest ih =>
    cases rest with
    | nil => simpa [semver.joinDots] using splitChars_of_not_mem a '.' (h a (by simp))
    | cons b r =>
      simp only [semver.joinDots]
      rw [splitChars_append a _ '.' (h a (by simp)), ih (by simp) (fun p hp => h p (by simp [hp]))]


namespace semver

/-- A character outside the set does not occur in a string made of the set. -/
theorem not_mem_of_containsOnly (p set : List Char) (c : Char)
    (h : containsOnly p set = true) (hc : set.contains c = false) : c ∉ p := by
  intro hm
  have := List.all_eq_true.mp h c hm
  rw [hc] at this
  exact Bool.false_ne_true this

/-- A run of digits is a run of identifier characters. -/
theorem containsOnly_numbers_alphanum (p : List Char) (h : containsOnly p numbers = true) :
    containsOnly p alphanum = true := by
  unfold containsOnly at h ⊢
  rw [List.all_eq_true] at h ⊢
  intro x hx
  have := h x hx
  simp only [alphanum, List.contains_eq_any_beq, List.any_append, Bool.or_eq_true] at this ⊢
  exact Or.inr this

/-- The number parser accepts exactly the numeric fields. -/
theorem parseNumber_ok_iff (which : String) (p : List Char) :
    (parseNumber which p).2 = none ↔ isNumericField p = true := by
  unfold parseNumber isNumericField parseUint
  cases h1 : containsOnly p numbers <;> cases h2 : hasLeadingZeroes p <;>
    cases h3 : p.isEmpty <;> simp

/-- The identifier parser accepts exactly the prerelease identifiers. -/
theorem NewPRVersion_ok_iff (p : List Char) :
    (NewPRVersion p).2 = none ↔ isPrereleaseIdentifier p = true := by
  unfold NewPRVersion isPrereleaseIdentifier parseUint
  cases h3 : p.isEmpty
  · cases h1 : containsOnly p numbers
    · cases h4 : containsOnly p alphanum <;> simp
    · have h4 := containsOnly_numbers_alphanum p h1
      cases h2 : hasLeadingZeroes p <;> simp [h4]
  · simp

/-- The prerelease loop succeeds exactly when every identifier is valid. -/
theorem parsePre_ok_iff (ids : List (List Char)) :
    (parsePre ids).2 = none ↔ ∀ p ∈ ids, isPrereleaseIdentifier p = true := by
  induction ids with
  | nil => simp [parsePre]
  | cons a rest ih =>
    simp only [parsePre, List.mem_cons, forall_eq_or_imp]
    rw [← ih, ← NewPRVersion_ok_iff]
    rcases h1 : NewPRVersion a with ⟨pr, _ | e⟩
    · rcases h2 : parsePre rest with ⟨prs, _ | e2⟩ <;> simp
    · simp

/-- The build loop succeeds exactly when every identifier is valid. -/
theorem parseBuild_ok_iff (ids : List (List Char)) :
    (parseBuild ids).2 = none ↔ ∀ b ∈ ids, isBuildIdentifier b = true := by
  induction ids with
  | nil => simp [parseBuild]
  | cons a rest ih =>
    simp only [parseBuild, List.mem_cons, forall_eq_or_imp]
    rw [← ih]
    unfold isBuildIdentifier
    cases h3 : a.isEmpty
    · cases h4 : containsOnly a alphanum
      · simp
      · rcases h2 : parseBuild rest with ⟨prs, _ | e2⟩ <;> simp
    · simp

end semver


/-- The split of `p0.p1.p2` at its first two separators. -/
theorem splitCharsN_three_of_append (p0 p1 p2 : List Char) (c : Char) (h0 : c ∉ p0)
    (h1 : c ∉ p1) : splitCharsN (p0 ++ c :: (p1 ++ c :: p2)) c 3 = [p0, p1, p2] := by
  simp [splitCharsN, indexRune_append, h0, h1]

/-- A split into three pieces gives the string back, and the first two pieces hold no separator. -/
theorem splitCharsN_three (l : List Char) (c : Char) (p0 p1 p2 : List Char)
    (h : splitCharsN l c 3 = [p0, p1, p2]) :
    c ∉ p0 ∧ c ∉ p1 ∧ l = p0 ++ c :: (p1 ++ c :: p2) := by
  simp only [splitCharsN] at h
  cases hi : indexRune l c with
  | none => simp [hi] at h
  | some i =>
    simp only [hi] at h
    cases hj : indexRune (l.drop (i + 1)) c with
    | none => simp [hj] at h
    | some j =>
      simp only [hj, List.cons.injEq, and_true] at h
      obtain ⟨e0, e1, e2⟩ := h
      obtain ⟨a1, a2⟩ := indexRune_some l c i hi
      obtain ⟨b1, b2⟩ := indexRune_some _ c j hj
      rw [e0] at a1 a2
      rw [e1] at b1 b2
      rw [e2] at b2
      rw [b2] at a2
      exact ⟨a1, b1, a2⟩

namespace semver

/-- Cutting a suffix written with `mark` off a string without `mark`. -/
theorem cutIdentifiers_suffix (a : List Char) (mark : Char) (ids : List (List Char))
    (hm : mark ∉ a) (hd : ∀ p ∈ ids, '.' ∉ p) :
    cutIdentifiers (a ++ suffix mark ids) mark = (a, ids) := by
  unfold cutIdentifiers suffix
  cases ids with
  | nil =>
    simp [(indexRune_eq_none_iff a mark).mpr hm]
  | cons b r =>
    simp only [List.isEmpty_cons, Bool.false_eq_true, if_false]
    rw [indexRune_append a _ mark hm]
    simp [splitChars_joinDots (b :: r) (by simp) hd]

/-- A cut gives the string back, and what precedes the cut holds no `mark`. -/
theorem cutIdentifiers_eq (x : List Char) (mark : Char) :
    mark ∉ (cutIdentifiers x mark).1 ∧
      x = (cutIdentifiers x mark).1 ++ suffix mark (cutIdentifiers x mark).2 := by
  unfold cutIdentifiers suffix
  cases hi : indexRune x mark with
  | none => simpa using (indexRune_eq_none_iff x mark).mp hi
  | some i =>
    obtain ⟨h1, h2⟩ := indexRune_some x mark i hi
    refine ⟨h1, ?_⟩
    cases hs : splitChars (List.drop (i + 1) x) '.' with
    | nil => exact absurd hs (splitChars_ne_nil _ _)
    | cons b r =>
      simp only [hs, List.isEmpty_cons, Bool.false_eq_true, if_false]
      rw [← hs, joinDots_splitChars]
      exact h2

/-- A character other than the dot that is in no identifier is not in their join. -/
theorem not_mem_joinDots (ids : List (List Char)) (c : Char) (hc : c ≠ '.')
    (h : ∀ p ∈ ids, c ∉ p) : c ∉ joinDots ids := by
  induction ids with
  | nil => simp [joinDots]
  | cons a rest ih =>
    cases rest with
    | nil => simpa [joinDots] using h a (by simp)
    | cons b r =>
      simp only [joinDots, List.mem_append, List.mem_cons, not_or]
      exact ⟨h a (by simp), hc, ih (fun p hp => h p (by simp [hp]))⟩

/-- A character that is neither the mark, nor the dot, nor in an identifier is not in the suffix. -/
theorem not_mem_suffix (ids : List (List Char)) (mark c : Char) (hm : c ≠ mark)
    (hc : c ≠ '.') (h : ∀ p ∈ ids, c ∉ p) : c ∉ suffix mark ids := by
  unfold suffix
  split_ifs
  · simp
  · simp only [List.mem_cons, not_or]
    exact ⟨hm, not_mem_joinDots ids c hc h⟩

/-- The parser succeeds exactly when each of its steps does. -/
theorem Parse_ok_iff_parts (s : String) :
    (Parse s).2 = none ↔ ∃ p0 p1 p2, splitCharsN s.data '.' 3 = [p0, p1, p2] ∧
      (parseNumber "Major" p0).2 = none ∧ (parseNumber "Minor" p1).2 = none ∧
      (parseNumber "Patch" (cutIdentifiers (cutIdentifiers p2 '+').1 '-').1).2 = none ∧
      (parsePre (cutIdentifiers (cutIdentifiers p2 '+').1 '-').2).2 = none ∧
      (parseBuild (cutIdentifiers p2 '+').2).2 = none := by
  unfold Parse
  cases hd : s.data with
  | nil => simp [splitCharsN, indexRune]
  | cons x xs =>
    simp only [List.isEmpty_cons, Bool.false_eq_true, if_false]
    split
    · rename_i p0 p1 p2 hsp
      rw [hsp]
      rcases h0 : parseNumber "Major" p0 with ⟨n0, _ | e0⟩
      · rcases h1 : parseNumber "Minor" p1 with ⟨n1, _ | e1⟩
        · rcases h2 : parseNumber "Patch"
            (cutIdentifiers (cutIdentifiers p2 '+').1 '-').1 with ⟨n2, _ | e2⟩
          · rcases h3 : parsePre (cutIdentifiers (cutIdentifiers p2 '+').1 '-').2
              with ⟨n3, _ | e3⟩
            · rcases h4 : parseBuild (cutIdentifiers p2 '+').2 with ⟨n4, _ | e4⟩
              · simp only [true_iff]
                exact ⟨p0, p1, p2, rfl, by simp [h0], by simp [h1], by simp [h2],
                  by simp [h3], by simp [h4]⟩
              · simp only [reduceCtorEq, false_iff]
                rintro ⟨q0, q1, q2, hq, -, -, -, -, hb⟩
                simp only [List.cons.injEq, and_true] at hq
                obtain ⟨rfl, rfl, rfl⟩ := hq
                simp [h4] at hb
            · simp only [reduceCtorEq, false_iff]
              rintro ⟨q0, q1, q2, hq, -, -, -, hb, -⟩
              simp only [List.cons.injEq, and_true] at hq
              obtain ⟨rfl, rfl, rfl⟩ := hq
              simp [h3] at hb
          · simp only [reduceCtorEq, false_iff]
            rintro ⟨q0, q1, q2, hq, -, -, hb, -, -⟩
            simp only [List.cons.injEq, and_true] at hq
            obtain ⟨rfl, rfl, rfl⟩ := hq
            simp [h2] at hb
        · simp only [reduceCtorEq, false_iff]
          rintro ⟨q0, q1, q2, hq, -, hb, -, -, -⟩
          simp only [List.cons.injEq, and_true] at hq
          obtain ⟨rfl, rfl, rfl⟩ := hq
          simp [h1] at hb
      · simp only [reduceCtorEq, false_iff]
        rintro ⟨q0, q1, q2, hq, hb, -, -, -, -⟩
        simp only [List.cons.injEq, and_true] at hq
        obtain ⟨rfl, rfl, rfl⟩ := hq
        simp [h0] at hb
    · rename_i hno
      simp only [reduceCtorEq, false_iff, not_exists, not_and]
      intro p0 p1 p2 hsp
      exact absurd hsp (hno p0 p1 p2)

/-- A numeric field holds digits only. -/
theorem not_mem_of_isNumericField (p : List Char) (c : Char) (h : isNumericField p = true)
    (hc : numbers.contains c = false) : c ∉ p := by
  unfold isNumericField at h
  simp only [Bool.and_eq_true] at h
  exact not_mem_of_containsOnly p numbers c h.1.2 hc

/-- A prerelease identifier holds letters, digits and hyphens only. -/
theorem not_mem_of_isPrereleaseIdentifier (p : List Char) (c : Char)
    (h : isPrereleaseIdentifier p = true) (hc : alphanum.contains c = false) : c ∉ p := by
  unfold isPrereleaseIdentifier at h
  simp only [Bool.and_eq_true] at h
  exact not_mem_of_containsOnly p alphanum c h.1.2 hc

/-- A build identifier holds letters, digits and hyphens only. -/
theorem not_mem_of_isBuildIdentifier (p : List Char) (c : Char)
    (h : isBuildIdentifier p = true) (hc : alphanum.contains c = false) : c ∉ p := by
  unfold isBuildIdentifier at h
  simp only [Bool.and_eq_true] at h
  exact not_mem_of_containsOnly p alphanum c h.2 hc

/-- The parser `semver.Parse` accepts exactly the strings of the grammar
`MAJOR.MINOR.PATCH[-PRERELEASE][+BUILD]`. -/
theorem Parse_ok_iff_IsSemver (s : String) : (Parse s).2 = none ↔ IsSemver s := by
  rw [Parse_ok_iff_parts]
  simp only [parseNumber_ok_iff, parsePre_ok_iff, parseBuild_ok_iff]
  constructor
  · rintro ⟨p0, p1, p2, hsp, h0, h1, h2, h3, h4⟩
    obtain ⟨-, -, hs⟩ := splitCharsN_three _ _ _ _ _ hsp
    obtain ⟨-, hb⟩ := cutIdentifiers_eq p2 '+'
    obtain ⟨-, hp⟩ := cutIdentifiers_eq (cutIdentifiers p2 '+').1 '-'
    refine ⟨p0, p1, _, _, _, h0, h1, h2, h3, h4, ?_⟩
    rw [hs]
    congr 3
    rw [← List.append_assoc, ← hp, ← hb]
  · rintro ⟨major, minor, patch, pre, build, h0, h1, h2, h3, h4, hs⟩
    refine ⟨major, minor, patch ++ (suffix '-' pre ++ suffix '+' build), ?_, h0, h1, ?_⟩
    · rw [hs]
      exact splitCharsN_three_of_append _ _ _ _
        (not_mem_of_isNumericField _ _ h0 (by decide))
        (not_mem_of_isNumericField _ _ h1 (by decide))
    · have hb : cutIdentifiers (patch ++ (suffix '-' pre ++ suffix '+' build)) '+' =
          (patch ++ suffix '-' pre, build) := by
        rw [← List.append_assoc]
        apply cutIdentifiers_suffix
        · simp only [List.mem_append, not_or]
          exact ⟨not_mem_of_isNumericField _ _ h2 (by decide),
            not_mem_suffix pre '-' '+' (by decide) (by decide)
              (fun p hp => not_mem_of_isPrereleaseIdentifier _ _ (h3 p hp) (by decide))⟩
        · exact fun p hp => not_mem_of_isBuildIdentifier _ _ (h4 p hp) (by decide)
      have hp : cutIdentifiers (patch ++ suffix '-' pre) '-' = (patch, pre) := by
        apply cutIdentifiers_suffix
        · exact not_mem_of_isNumericField _ _ h2 (by decide)
        · exact fun p hp => not_mem_of_isPrereleaseIdentifier _ _ (h3 p hp) (by decide)
      rw [hb]
      simp only [hp]
      exact ⟨h2, h3, h4⟩

end semver

/-! ### Precedence -/

namespace semver

/-- For two different strings, exactly one is greater than the other. -/
theorem stringGreater_swap (a b : List Char) (h : a ≠ b) :
    stringGreater b a = !stringGreater a b := by
  induction a generalizing b with
  | nil =>
    cases b with
    | nil => exact absurd rfl h
    | cons y ys => simp [stringGreater]
  | cons x xs ih =>
    cases b with
    | nil => simp [stringGreater]
    | cons y ys =>
      simp only [stringGreater]
      by_cases h1 : y.toNat < x.toNat
      · have h2 : ¬ x.toNat < y.toNat := by omega
        simp [h1, h2]
      · by_cases h2 : x.toNat < y.toNat
        · simp [h1, h2]
        · have hxy : x = y := by
            apply Char.ext
            apply UInt32.ext
            have : x.toNat = y.toNat := by omega
            exact this
          subst hxy
          have hne : xs ≠ ys := fun e => h (by rw [e])
          simp [h1, ih ys hne]

/-- Swapping the arguments of the identifier comparison negates the result. -/
theorem PRVersion_Compare_swap (v o : PRVersion) : o.Compare v = - v.Compare o := by
  obtain ⟨vs, vn, vi⟩ := v
  obtain ⟨os, onum, oi⟩ := o
  unfold PRVersion.Compare
  cases vi <;> cases oi <;> simp
  · by_cases h : vs = os
    · simp [h]
    · have h' : ¬ os = vs := fun e => h e.symm
      have hd : vs.data ≠ os.data := fun e => h (String.ext e)
      rw [stringGreater_swap vs.data os.data hd]
      simp only [h, h', if_false]
      cases stringGreater vs.data os.data <;> simp
  · by_cases h : vn = onum
    · simp [h]
    · have h' : ¬ onum = vn := fun e => h e.symm
      simp only [h, h', if_false]
      rcases Nat.lt_or_gt_of_ne h with hl | hg
      · have : ¬ onum < vn := by omega
        simp [hl, this]
      · have : ¬ vn < onum := by omega
        simp [hg, this]


/-- The identifier comparison returns `-1`, `0` or `1`. -/
theorem PRVersion_Compare_range (v o : PRVersion) :
    v.Compare o = -1 ∨ v.Compare o = 0 ∨ v.Compare o = 1 := by
  unfold PRVersion.Compare
  split_ifs <;> simp

/-- Swapping the arguments of the prerelease comparison negates the result. -/
theorem comparePre_swap (a b : List PRVersion) : comparePre b a = - comparePre a b := by
  induction a generalizing b with
  | nil => cases b <;> simp [comparePre]
  | cons x xs ih =>
    cases b with
    | nil => simp [comparePre]
    | cons y ys =>
      simp only [comparePre]
      rw [PRVersion_Compare_swap x y, ih ys]
      rcases PRVersion_Compare_range x y with h | h | h <;> simp [h]

/-- Swapping the arguments of `Compare` negates the result. -/
theorem Version_Compare_swap (v o : Version) : o.Compare v = - v.Compare o := by
  unfold Version.Compare
  by_cases h1 : v.Major = o.Major
  · by_cases h2 : v.Minor = o.Minor
    · by_cases h3 : v.Patch = o.Patch
      · simp only [h1, h2, h3, ne_eq, not_true_eq_false, if_false]
        rw [comparePre_swap v.Pre o.Pre]
        cases hv : v.Pre <;> cases ho : o.Pre <;> simp
      · have h3' : ¬ o.Patch = v.Patch := fun e => h3 e.symm
        simp only [h1, h2, h3, h3', ne_eq, not_true_eq_false, not_false_eq_true, if_false, if_true]
        rcases Nat.lt_or_gt_of_ne h3 with hl | hg
        · have : ¬ o.Patch < v.Patch := by omega
          simp [hl, this]
        · have : ¬ v.Patch < o.Patch := by omega
          simp [hg, this]
    · have h2' : ¬ o.Minor = v.Minor := fun e => h2 e.symm
      simp only [h1, h2, h2', ne_eq, not_true_eq_false, not_false_eq_true, if_false, if_true]
      rcases Nat.lt_or_gt_of_ne h2 with hl | hg
      · have : ¬ o.Minor < v.Minor := by omega
        simp [hl, this]
      · have : ¬ v.Minor < o.Minor := by omega
        simp [hg, this]
  · have h1' : ¬ o.Major = v.Major := fun e => h1 e.symm
    simp only [h1, h1', ne_eq, not_false_eq_true, if_true]
    rcases Nat.lt_or_gt_of_ne h1 with hl | hg
    · have : ¬ o.Major < v.Major := by omega
      simp [hl, this]
    · have : ¬ v.Major < o.Major := by omega
      simp [hg, this]

/-- The relation `v.LT o` is `o.GT v`. -/
theorem Version_LT_eq_GT_swap (v o : Version) : v.LT o = o.GT v := by
  unfold Version.LT Version.GT
  rw [Version_Compare_swap v o]
  cases h : (v.Compare o == -1) <;> simp at h ⊢ <;> omega

/-- The relation `Equals` is symmetric. -/
theorem Version_Equals_comm (v o : Version) : v.Equals o = o.Equals v := by
  unfold Version.Equals
  rw [Version_Compare_swap v o]
  cases h : (v.Compare o == 0) <;> simp at h ⊢ <;> omega

end semver

/-! ### Build metadata and the first character -/

namespace semver

/-- An identifier has the same precedence as itself. -/
theorem PRVersion_Compare_self (v : PRVersion) : v.Compare v = 0 := by
  unfold PRVersion.Compare
  cases v.IsNum <;> simp

/-- A prerelease list has the same precedence as itself. -/
theorem comparePre_self (a : List PRVersion) : comparePre a a = 0 := by
  induction a with
  | nil => rfl
  | cons x xs ih => simp [comparePre, PRVersion_Compare_self, ih]

/-- Two versions with the same numbers and the same prerelease identifiers have
equal precedence, whatever their build metadata. -/
theorem Version_Compare_eq_zero_of_same (a b : Version) (h1 : a.Major = b.Major)
    (h2 : a.Minor = b.Minor) (h3 : a.Patch = b.Patch) (h4 : a.Pre = b.Pre) :
    a.Compare b = 0 := by
  unfold Version.Compare
  simp only [h1, h2, h3, h4, ne_eq, not_true_eq_false, if_false]
  cases b.Pre with
  | nil => simp
  | cons x xs => simp [comparePre_self]

/-- The comparison does not read the build metadata. -/
theorem Version_Compare_build (a b : Version) (x y : List String) :
    ({ a with Build := x } : Version).Compare { b with Build := y } = a.Compare b := rfl

/-- A semantic version string starts with a digit. -/
theorem IsSemver_head (s : String) (h : IsSemver s) :
    ∃ c cs, s.data = c :: cs ∧ numbers.contains c = true := by
  obtain ⟨major, minor, patch, pre, build, h0, -, -, -, -, hs⟩ := h
  unfold isNumericField at h0
  simp only [Bool.and_eq_true, Bool.not_eq_true'] at h0
  obtain ⟨⟨hne, hall⟩, -⟩ := h0
  cases major with
  | nil => simp at hne
  | cons c cs =>
    refine ⟨c, _, by rw [hs]; rfl, ?_⟩
    exact List.all_eq_true.mp hall c (by simp)

/-- A string whose first character is not a digit does not parse. -/
theorem Parse_fails_of_head (c : Char) (cs : List Char) (hc : numbers.contains c = false) :
    (Parse (String.mk (c :: cs))).2 ≠ none := by
  intro h
  obtain ⟨d, ds, hd, hn⟩ := IsSemver_head _ ((Parse_ok_iff_IsSemver _).mp h)
  simp only [List.cons.injEq] at hd
  rw [← hd.1, hc] at hn
  exact Bool.false_ne_true hn

end semver

/-! ### Precedence is a total preorder -/

namespace semver

/-- No string is greater than itself. -/
theorem stringGreater_irrefl (a : List Char) : stringGreater a a = false := by
  induction a with
  | nil => rfl
  | cons x xs ih => simp [stringGreater, ih]

/-- The order `not greater` on strings is transitive. -/
theorem stringGreater_le_trans (a b c : List Char) (h1 : stringGreater a b = false)
    (h2 : stringGreater b c = false) : stringGreater a c = false := by
  induction a generalizing b c with
  | nil => cases c <;> rfl
  | cons x xs ih =>
    cases b with
    | nil => simp [stringGreater] at h1
    | cons y ys =>
      cases c with
      | nil => simp [stringGreater] at h2
      | cons z zs =>
        simp only [stringGreater] at h1 h2 ⊢
        by_cases hyx : y.toNat < x.toNat
        · simp [hyx] at h1
        · by_cases hzy : z.toNat < y.toNat
          · simp [hzy] at h2
          · simp only [hyx, hzy, if_false] at h1 h2
            by_cases hxy : x.toNat < y.toNat
            · have hzx : ¬ z.toNat < x.toNat := by omega
              have hxz : x.toNat < z.toNat := by omega
              simp [hzx, hxz]
            · by_cases hyz : y.toNat < z.toNat
              · have hzx : ¬ z.toNat < x.toNat := by omega
                have hxz : x.toNat < z.toNat := by omega
                simp [hzx, hxz]
              · simp only [hxy, hyz, if_false] at h1 h2
                have hzx : ¬ z.toNat < x.toNat := by omega
                have hxz : ¬ x.toNat < z.toNat := by omega
                simp only [hzx, hxz, if_false]
                exact ih ys zs h1 h2

/-- When an identifier is lower than or equal to another. -/
theorem PRVersion_Compare_le_iff (v o : PRVersion) :
    v.Compare o ≤ 0 ↔ (v.IsNum = true ∧ o.IsNum = false) ∨
      (v.IsNum = true ∧ o.IsNum = true ∧ v.VersionNum ≤ o.VersionNum) ∨
      (v.IsNum = false ∧ o.IsNum = false ∧
        stringGreater v.VersionStr.data o.VersionStr.data = false) := by
  obtain ⟨vs, vn, vi⟩ := v
  obtain ⟨os, onum, oi⟩ := o
  unfold PRVersion.Compare
  cases vi <;> cases oi <;> simp
  · by_cases h : vs = os
    · simp [h, stringGreater_irrefl]
    · simp only [h, if_false]
      cases stringGreater vs.data os.data <;> simp
  · by_cases h : vn = onum
    · simp [h]
    · simp only [h, if_false]
      by_cases h2 : onum < vn
      · simp [h2]
      · simp [h2]; omega

/-- Lower-or-equal on identifiers is transitive. -/
theorem PRVersion_Compare_le_trans (a b c : PRVersion) (h1 : a.Compare b ≤ 0)
    (h2 : b.Compare c ≤ 0) : a.Compare c ≤ 0 := by
  rw [PRVersion_Compare_le_iff] at h1 h2 ⊢
  rcases h1 with ⟨ha, hb⟩ | ⟨ha, hb, hab⟩ | ⟨ha, hb, hab⟩ <;>
    rcases h2 with ⟨hb2, hc⟩ | ⟨hb2, hc, hbc⟩ | ⟨hb2, hc, hbc⟩ <;>
    simp_all
  · omega
  · exact stringGreater_le_trans _ _ _ hab hbc


/-- The prerelease comparison returns `-1`, `0` or `1`. -/
theorem comparePre_range (a b : List PRVersion) :
    comparePre a b = -1 ∨ comparePre a b = 0 ∨ comparePre a b = 1 := by
  induction a generalizing b with
  | nil => cases b <;> simp [comparePre]
  | cons x xs ih =>
    cases b with
    | nil => simp [comparePre]
    | cons y ys =>
      simp only [comparePre]
      split_ifs
      · exact ih ys
      · simp
      · simp

/-- Lower-or-equal on prerelease lists is transitive. -/
theorem comparePre_le_trans (a b c : List PRVersion) (h1 : comparePre a b ≤ 0)
    (h2 : comparePre b c ≤ 0) : comparePre a c ≤ 0 := by
  induction a generalizing b c with
  | nil => cases c <;> simp [comparePre]
  | cons x xs ih =>
    cases b with
    | nil => simp [comparePre] at h1
    | cons y ys =>
      cases c with
      | nil => simp [comparePre] at h2
      | cons z zs =>
        simp only [comparePre] at h1 h2 ⊢
        have ih' := ih ys zs
        have r1 := PRVersion_Compare_range x y
        have r2 := PRVersion_Compare_range y z
        have r3 := PRVersion_Compare_range x z
        have t1 := PRVersion_Compare_le_trans x y z
        have t2 := PRVersion_Compare_le_trans y z x
        have t3 := PRVersion_Compare_le_trans z x y
        rw [PRVersion_Compare_swap x z, PRVersion_Compare_swap x y] at t2
        rw [PRVersion_Compare_swap x z, PRVersion_Compare_swap y z] at t3
        split_ifs at h1 h2 ⊢ <;> omega


/-- The comparison `Compare` returns `-1`, `0` or `1`. -/
theorem Version_Compare_range (a b : Version) :
    a.Compare b = -1 ∨ a.Compare b = 0 ∨ a.Compare b = 1 := by
  unfold Version.Compare
  have r := comparePre_range a.Pre b.Pre
  split_ifs <;> simp [r]

/-- When a version is lower than or equal to another: by major, then minor, then
patch, then the prerelease part. -/
theorem Version_Compare_le_iff (a b : Version) :
    a.Compare b ≤ 0 ↔
      a.Major < b.Major ∨ (a.Major = b.Major ∧ (a.Minor < b.Minor ∨ (a.Minor = b.Minor ∧
        (a.Patch < b.Patch ∨ (a.Patch = b.Patch ∧
          (if a.Pre.length = 0 ∧ b.Pre.length = 0 then (0 : Int)
            else if a.Pre.length = 0 ∧ b.Pre.length > 0 then 1
            else if a.Pre.length > 0 ∧ b.Pre.length = 0 then -1
            else comparePre a.Pre b.Pre) ≤ 0))))) := by
  unfold Version.Compare
  by_cases h1 : a.Major = b.Major
  · by_cases h2 : a.Minor = b.Minor
    · by_cases h3 : a.Patch = b.Patch
      · simp [h1, h2, h3]
      · simp only [h1, h2, h3, ne_eq, not_true_eq_false, not_false_eq_true, if_false, if_true]
        split_ifs <;> simp <;> omega
    · simp only [h1, h2, ne_eq, not_true_eq_false, not_false_eq_true, if_false, if_true]
      split_ifs <;> simp <;> omega
  · simp only [h1, ne_eq, not_false_eq_true, if_true]
    split_ifs <;> simp <;> omega

/-- Lower-or-equal on the prerelease part of `Compare`, where no prerelease is the
greatest, is transitive. -/
theorem comparePrerelease_le_trans (x y z : List PRVersion)
    (h1 : (if x.length = 0 ∧ y.length = 0 then (0 : Int)
            else if x.length = 0 ∧ y.length > 0 then 1
            else if x.length > 0 ∧ y.length = 0 then -1
            else comparePre x y) ≤ 0)
    (h2 : (if y.length = 0 ∧ z.length = 0 then (0 : Int)
            else if y.length = 0 ∧ z.length > 0 then 1
            else if y.length > 0 ∧ z.length = 0 then -1
            else comparePre y z) ≤ 0) :
    (if x.length = 0 ∧ z.length = 0 then (0 : Int)
            else if x.length = 0 ∧ z.length > 0 then 1
            else if x.length > 0 ∧ z.length = 0 then -1
            else comparePre x z) ≤ 0 := by
  have t := comparePre_le_trans x y z
  split_ifs at h1 h2 ⊢ <;> omega

/-- Lower-or-equal on versions is transitive. -/
theorem Version_Compare_le_trans (a b c : Version) (h1 : a.Compare b ≤ 0)
    (h2 : b.Compare c ≤ 0) : a.Compare c ≤ 0 := by
  have t := comparePrerelease_le_trans a.Pre b.Pre c.Pre
  rw [Version_Compare_le_iff] at h1 h2 ⊢
  generalize (if a.Pre.length = 0 ∧ b.Pre.length = 0 then (0 : Int)
            else if a.Pre.length = 0 ∧ b.Pre.length > 0 then 1
            else if a.Pre.length > 0 ∧ b.Pre.length = 0 then -1
            else comparePre a.Pre b.Pre) = tab at *
  generalize (if b.Pre.length = 0 ∧ c.Pre.length = 0 then (0 : Int)
            else if b.Pre.length = 0 ∧ c.Pre.length > 0 then 1
            else if b.Pre.length > 0 ∧ c.Pre.length = 0 then -1
            else comparePre b.Pre c.Pre) = tbc at *
  generalize (if a.Pre.length = 0 ∧ c.Pre.length = 0 then (0 : Int)
            else if a.Pre.length = 0 ∧ c.Pre.length > 0 then 1
            else if a.Pre.length > 0 ∧ c.Pre.length = 0 then -1
            else comparePre a.Pre c.Pre) = tac at *
  omega


/-- A parsed identifier keeps only the field its kind uses: a number has the empty
string and an alphanumeric identifier has the number zero. -/
theorem NewPRVersion_canonical (p : List Char) (pr : PRVersion)
    (h : NewPRVersion p = (pr, none)) :
    (pr.IsNum = true → pr.VersionStr = "") ∧ (pr.IsNum = false → pr.VersionNum = 0) := by
  unfold NewPRVersion at h
  split_ifs at h
  · simp at h
  · simp at h
  · split at h
    · simp at h
    · simp only [Prod.mk.injEq, and_true] at h
      subst h
      simp
  · simp only [Prod.mk.injEq, and_true] at h
    subst h
    simp
  · simp at h

/-- Every identifier of a parsed prerelease list is in that form. -/
theorem parsePre_canonical (ids : List (List Char)) (l : List PRVersion)
    (h : parsePre ids = (l, none)) :
    ∀ p ∈ l, (p.IsNum = true → p.VersionStr = "") ∧ (p.IsNum = false → p.VersionNum = 0) := by
  induction ids generalizing l with
  | nil =>
    simp only [parsePre, Prod.mk.injEq, and_true] at h
    subst h
    simp
  | cons a rest ih =>
    simp only [parsePre] at h
    rcases h1 : NewPRVersion a with ⟨pr, _ | e⟩
    · rcases h2 : parsePre rest with ⟨prs, _ | e2⟩
      · simp only [h1, h2, Prod.mk.injEq, and_true] at h
        subst h
        intro p hp
        rcases List.mem_cons.mp hp with rfl | hp
        · exact NewPRVersion_canonical a _ h1
        · exact ih prs h2 p hp
      · simp [h1, h2] at h
    · simp [h1] at h

/-- Every prerelease identifier of a parsed version is in that form. -/
theorem Parse_Pre_canonical (s : String) (v : Version) (h : Parse s = (v, none)) :
    ∀ p ∈ v.Pre, (p.IsNum = true → p.VersionStr = "") ∧
      (p.IsNum = false → p.VersionNum = 0) := by
  unfold Parse at h
  split_ifs at h
  · simp at h
  · split at h
    · rename_i p0 p1 p2 hsp
      rcases h0 : parseNumber "Major" p0 with ⟨n0, _ | e0⟩
      · rcases h1 : parseNumber "Minor" p1 with ⟨n1, _ | e1⟩
        · rcases h2 : parseNumber "Patch"
            (cutIdentifiers (cutIdentifiers p2 '+').1 '-').1 with ⟨n2, _ | e2⟩
          · rcases h3 : parsePre (cutIdentifiers (cutIdentifiers p2 '+').1 '-').2
              with ⟨n3, _ | e3⟩
            · rcases h4 : parseBuild (cutIdentifiers p2 '+').2 with ⟨n4, _ | e4⟩
              · simp only [h0, h1, h2, h3, h4, Prod.mk.injEq, and_true] at h
                subst h
                exact parsePre_canonical _ _ h3
              · simp [h0, h1, h2, h3, h4] at h
            · simp [h0, h1, h2, h3] at h
          · simp [h0, h1, h2] at h
        · simp [h0, h1] at h
      · simp [h0] at h
    · simp at h

/-- Two parsed identifiers have equal precedence exactly when they are equal. -/
theorem PRVersion_Compare_eq_zero_iff (v o : PRVersion)
    (hv : (v.IsNum = true → v.VersionStr = "") ∧ (v.IsNum = false → v.VersionNum = 0))
    (ho : (o.IsNum = true → o.VersionStr = "") ∧ (o.IsNum = false → o.VersionNum = 0)) :
    v.Compare o = 0 ↔ v = o := by
  obtain ⟨vs, vn, vi⟩ := v
  obtain ⟨os, onum, oi⟩ := o
  unfold PRVersion.Compare
  cases vi <;> cases oi <;> simp at hv ho ⊢
  · subst hv ho
    by_cases h : vs = os
    · simp [h]
    · simp only [h, if_false, false_and, iff_false]
      split_ifs <;> simp
  · subst hv ho
    by_cases h : vn = onum
    · simp [h]
    · simp only [h, if_false, and_false, iff_false]
      split_ifs <;> simp

/-- Two parsed prerelease lists have equal precedence exactly when they are equal. -/
theorem comparePre_eq_zero_iff (a b : List PRVersion)
    (ha : ∀ p ∈ a, (p.IsNum = true → p.VersionStr = "") ∧ (p.IsNum = false → p.VersionNum = 0))
    (hb : ∀ p ∈ b, (p.IsNum = true → p.VersionStr = "") ∧ (p.IsNum = false → p.VersionNum = 0)) :
    comparePre a b = 0 ↔ a = b := by
  induction a generalizing b with
  | nil => cases b <;> simp [comparePre]
  | cons x xs ih =>
    cases b with
    | nil => simp [comparePre]
    | cons y ys =>
      have hxy := PRVersion_Compare_eq_zero_iff x y (ha x (by simp)) (hb y (by simp))
      have ih' := ih ys (fun p hp => ha p (by simp [hp])) (fun p hp => hb p (by simp [hp]))
      simp only [comparePre, List.cons.injEq]
      split_ifs with h0 h1
      · rw [ih']
        simp [hxy.mp h0]
      · simp only [one_ne_zero, false_iff, not_and]
        intro e
        exact absurd (hxy.mpr e) h0
      · simp only [Int.reduceNeg, neg_eq_zero, one_ne_zero, false_iff, not_and]
        intro e
        exact absurd (hxy.mpr e) h0

/-- Two parsed versions have equal precedence exactly when they are equal up to
build metadata. -/
theorem Version_Compare_eq_zero_iff (a b : Version)
    (ha : ∀ p ∈ a.Pre, (p.IsNum = true → p.VersionStr = "") ∧
      (p.IsNum = false → p.VersionNum = 0))
    (hb : ∀ p ∈ b.Pre, (p.IsNum = true → p.VersionStr = "") ∧
      (p.IsNum = false → p.VersionNum = 0)) :
    a.Compare b = 0 ↔
      (a.Major = b.Major ∧ a.Minor = b.Minor ∧ a.Patch = b.Patch ∧ a.Pre = b.Pre) := by
  constructor
  · intro h
    have hp := comparePre_eq_zero_iff a.Pre b.Pre ha hb
    unfold Version.Compare at h
    split_ifs at h with h1 h1a h2 h2a h3 h3a h4 h5 h6 <;> try omega
    · simp only [ne_eq, not_not] at h1 h2 h3
      refine ⟨h1, h2, h3, ?_⟩
      rw [List.length_eq_zero.mp h4.1, List.length_eq_zero.mp h4.2]
    · simp only [ne_eq, not_not] at h1 h2 h3
      exact ⟨h1, h2, h3, hp.mp h⟩
  · rintro ⟨h1, h2, h3, h4⟩
    exact Version_Compare_eq_zero_of_same a b h1 h2 h3 h4

end semver

/-! ### The checker and the provider -/

/-- The zero `CheckResponse`, field by field. -/
theorem default_CheckResponse :
    (default : CheckResponse) =
      ⟨false, ⟨0, 0, 0, [], []⟩, ⟨⟨0, 0, 0, [], []⟩, "", false⟩⟩ := rfl

/-- The zero `LatestResponse`, field by field. -/
theorem default_LatestResponse :
    (default : LatestResponse) = ⟨⟨0, 0, 0, [], []⟩, "", false⟩ := rfl

/-- What `Check` returns when the provider answers without an error. -/
theorem Check_of_Latest_ok {σ : Type} (p : Provider σ) (c : semver.Version) (w w1 : σ)
    (L : LatestResponse) (h : p.Latest w = ((L, none), w1)) :
    Uptd.Check ⟨some p, c⟩ w =
      some ((⟨L.Version.GT c && !L.PreRelease, c, L⟩, none), w1) := by
  simp only [Uptd.Check, h]

/-- What `Check` returns when the provider answers with an error. -/
theorem Check_of_Latest_err {σ : Type} (p : Provider σ) (c : semver.Version) (w w1 : σ)
    (L : LatestResponse) (e : GoError) (h : p.Latest w = ((L, some e), w1)) :
    Uptd.Check ⟨some p, c⟩ w = some ((default, some e), w1) := by
  simp only [Uptd.Check, h]

/-- Trimming the prefix `v` from `"v" ++ s` gives `s`. -/
theorem stringsTrimPrefix_v_append (s : String) : stringsTrimPrefix ("v" ++ s) "v" = s := by
  simp [stringsTrimPrefix, stringsHasPrefix]

/-- A number of a version cannot start with the letter `v`. -/
theorem parseNumber_v (which : String) (cs : List Char) :
    ∃ e, (semver.parseNumber which ('v' :: cs)) = (0, some e) := by
  simp [semver.parseNumber, semver.containsOnly, semver.numbers]

/-- The first piece of a split starts with the first character of the string,
when that character is not the separator. -/
theorem splitCharsN_head (c : Char) (cs : List Char) (sep : Char) (n : Nat) (hc : c ≠ sep)
    (p0 : List Char) (ps : List (List Char))
    (h : splitCharsN (c :: cs) sep (n + 2) = p0 :: ps) : ∃ t, p0 = c :: t := by
  simp only [splitCharsN, indexRune, if_neg hc] at h
  cases hi : indexRune cs sep with
  | none =>
    simp only [hi, Option.map_none'] at h
    exact ⟨cs, (List.cons.inj h).1.symm⟩
  | some j =>
    simp only [hi, Option.map_some', Nat.succ_eq_add_one, List.take_succ_cons] at h
    exact ⟨_, (List.cons.inj h).1.symm⟩

/-- A string that starts with `v` is not a semantic version. -/
theorem Parse_v_fails (cs : List Char) : (semver.Parse (String.mk ('v' :: cs))).2 ≠ none := by
  unfold semver.Parse
  simp only [List.isEmpty_cons, Bool.false_eq_true, if_false]
  split
  · rename_i p0 p1 p2 hsp
    obtain ⟨t, rfl⟩ := splitCharsN_head 'v' cs '.' 1 (by decide) p0 [p1, p2] hsp
    obtain ⟨e, he⟩ := parseNumber_v "Major" t
    simp [he]
  · simp

/-- Trimming the prefix `v` leaves a valid semantic version string as it is. -/
theorem Parse_ok_trimPrefix (s : String) (h : (semver.Parse s).2 = none) :
    stringsTrimPrefix s "v" = s := by
  unfold stringsTrimPrefix stringsHasPrefix
  split
  · rename_i hp
    exfalso
    obtain ⟨l⟩ := s
    cases l with
    | nil => simp at hp
    | cons c cs =>
      have hc : 'v' = c := by simpa using hp
      subst hc
      exact Parse_v_fails cs h
  · rfl

/-- A string of the grammar parses without an error, to `newSemver s`. -/
theorem Parse_of_IsSemver (s : String) (h : semver.IsSemver s) :
    semver.Parse s = (newSemver s, none) := by
  have h2 := (semver.Parse_ok_iff_IsSemver s).mpr h
  exact Prod.ext rfl h2

/-- What `Latest` returns when the lookup fails. -/
theorem Latest_of_lookup_err {σ : Type} (g : GithubProvider σ) (w w1 : σ)
    (rel : Option RepositoryRelease) (e : GoError)
    (h : g.latestFunc g.owner g.repo w = ((rel, some e), w1)) :
    g.Latest w = ((default, some e), w1) := by
  simp only [GithubProvider.Latest, h]

/-- What `Latest` returns when the lookup succeeds and the tag parses. -/
theorem Latest_of_parse_ok {σ : Type} (g : GithubProvider σ) (w w1 : σ)
    (rel : Option RepositoryRelease) (v : semver.Version)
    (h : g.latestFunc g.owner g.repo w = ((rel, none), w1))
    (hp : semver.Parse (stringsTrimPrefix (GetTagName rel) "v") = (v, none)) :
    g.Latest w =
      ((⟨v, GetHTMLURL rel, GetPrerelease rel || GetDraft rel⟩, none), w1) := by
  simp only [GithubProvider.Latest, h, hp]

/-- What `Latest` returns when the lookup succeeds and the tag does not parse. -/
theorem Latest_of_parse_err {σ : Type} (g : GithubProvider σ) (w w1 : σ)
    (rel : Option RepositoryRelease) (v : semver.Version) (e : GoError)
    (h : g.latestFunc g.owner g.repo w = ((rel, none), w1))
    (hp : semver.Parse (stringsTrimPrefix (GetTagName rel) "v") = (v, some e)) :
    g.Latest w = ((default, some e), w1) := by
  simp only [GithubProvider.Latest, h, hp]

/-! ## The update decision of `Check` -/

/-- C1: when the provider lookup succeeds with response `L`, `Check` returns
without an error and `NeedsUpdate` is true if and only if `L.Version` is
strictly greater than the current version and `L.PreRelease` is false. -/
theorem Check_NeedsUpdate_iff {σ : Type} (p : Provider σ) (c : semver.Version) (w w1 : σ)
    (L : LatestResponse) (h : p.Latest w = ((L, none), w1)) :
    ∃ r : CheckResponse, Uptd.Check ⟨some p, c⟩ w = some ((r, none), w1) ∧
      (r.NeedsUpdate = true ↔ (L.Version.GT c = true ∧ L.PreRelease = false)) := by
  refine ⟨_, Check_of_Latest_ok p c w w1 L h, ?_⟩
  simp

/-- C1 at the test case of `TestUptdCheck`: remote `99.99.99`, current `99.99.98`. -/
theorem Check_NeedsUpdate_iff_witness :
    (mockProvider ⟨newSemver "99.99.99", "http://host/path/version", false⟩ none).Latest () =
        ((⟨newSemver "99.99.99", "http://host/path/version", false⟩, none), ()) ∧
    ∃ r : CheckResponse,
      Uptd.Check ⟨some (mockProvider ⟨newSemver "99.99.99", "http://host/path/version", false⟩
        none), newSemver "99.99.98"⟩ () = some ((r, none), ()) ∧
      (r.NeedsUpdate = true ↔
        ((newSemver "99.99.99").GT (newSemver "99.99.98") = true ∧ false = false)) :=
  ⟨rfl, Check_NeedsUpdate_iff _ (newSemver "99.99.98") () ()
    ⟨newSemver "99.99.99", "http://host/path/version", false⟩ rfl⟩

/-- C2: when the provider's `Latest` returns an error `e`, whatever response
comes with it, `Check` returns exactly `e` together with the zero
`CheckResponse`: `NeedsUpdate` false, zero `Current`, zero `Latest`. -/
theorem Check_error_verbatim {σ : Type} (p : Provider σ) (c : semver.Version) (w w1 : σ)
    (L : LatestResponse) (e : GoError) (h : p.Latest w = ((L, some e), w1)) :
    Uptd.Check ⟨some p, c⟩ w =
      some ((⟨false, ⟨0, 0, 0, [], []⟩, ⟨⟨0, 0, 0, [], []⟩, "", false⟩⟩, some e), w1) := by
  rw [Check_of_Latest_err p c w w1 L e h, default_CheckResponse]

/-- C2 at a provider that returns the error `"ERROR"` next to a populated
response. -/
theorem Check_error_verbatim_witness :
    (mockProvider ⟨newSemver "99.99.99", "http://host/path/version", false⟩
        (some (.errorsNew "ERROR"))).Latest () =
        ((⟨newSemver "99.99.99", "http://host/path/version", false⟩,
          some (.errorsNew "ERROR")), ()) ∧
    Uptd.Check ⟨some (mockProvider ⟨newSemver "99.99.99", "http://host/path/version", false⟩
        (some (.errorsNew "ERROR"))), newSemver "99.99.98"⟩ () =
      some ((⟨false, ⟨0, 0, 0, [], []⟩, ⟨⟨0, 0, 0, [], []⟩, "", false⟩⟩,
        some (.errorsNew "ERROR")), ()) :=
  ⟨rfl, Check_error_verbatim _ (newSemver "99.99.98") () ()
    ⟨newSemver "99.99.99", "http://host/path/version", false⟩ (.errorsNew "ERROR") rfl⟩

/-- C3: when the provider lookup succeeds with response `L`, the returned
`CheckResponse` has `Current` equal to the stored current version and `Latest`
equal to `L` in each of `Version`, `URL` and `PreRelease`, whatever
`NeedsUpdate` is. -/
theorem Check_echoes_current_and_latest {σ : Type} (p : Provider σ) (c : semver.Version)
    (w w1 : σ) (L : LatestResponse) (h : p.Latest w = ((L, none), w1)) :
    ∃ r : CheckResponse, Uptd.Check ⟨some p, c⟩ w = some ((r, none), w1) ∧
      r.Current = c ∧ r.Latest = L ∧ r.Latest.Version = L.Version ∧
      r.Latest.URL = L.URL ∧ r.Latest.PreRelease = L.PreRelease :=
  ⟨_, Check_of_Latest_ok p c w w1 L h, rfl, rfl, rfl, rfl, rfl⟩

/-- C3 at a remote prerelease that is lower than the current version, where
`NeedsUpdate` is false. -/
theorem Check_echoes_current_and_latest_witness :
    (mockProvider ⟨newSemver "1.0.0-rc.1", "http://host/path/version", true⟩ none).Latest () =
        ((⟨newSemver "1.0.0-rc.1", "http://host/path/version", true⟩, none), ()) ∧
    ∃ r : CheckResponse,
      Uptd.Check ⟨some (mockProvider ⟨newSemver "1.0.0-rc.1", "http://host/path/version", true⟩
        none), newSemver "2.0.0"⟩ () = some ((r, none), ()) ∧
      r.Current = newSemver "2.0.0" ∧
      r.Latest = ⟨newSemver "1.0.0-rc.1", "http://host/path/version", true⟩ ∧
      r.Latest.Version = newSemver "1.0.0-rc.1" ∧
      r.Latest.URL = "http://host/path/version" ∧ r.Latest.PreRelease = true :=
  ⟨rfl, Check_echoes_current_and_latest _ (newSemver "2.0.0") () ()
    ⟨newSemver "1.0.0-rc.1", "http://host/path/version", true⟩ rfl⟩

/-- C4: when the provider lookup succeeds with a response whose version is lower
than or equal to the current version in precedence, `NeedsUpdate` is false,
for both values of `PreRelease`. -/
theorem Check_no_update_of_not_greater {σ : Type} (p : Provider σ) (c : semver.Version)
    (w w1 : σ) (L : LatestResponse) (h : p.Latest w = ((L, none), w1))
    (hle : L.Version.LT c = true ∨ L.Version.Equals c = true) :
    ∃ r : CheckResponse, Uptd.Check ⟨some p, c⟩ w = some ((r, none), w1) ∧
      r.NeedsUpdate = false := by
  refine ⟨_, Check_of_Latest_ok p c w w1 L h, ?_⟩
  have hgt : L.Version.GT c = false := by
    unfold semver.Version.GT
    unfold semver.Version.LT semver.Version.Equals at hle
    rcases hle with hlt | heq
    · have h1 : L.Version.Compare c = -1 := by simpa using hlt
      simp [h1]
    · have h0 : L.Version.Compare c = 0 := by simpa using heq
      simp [h0]
  simp [hgt]

/-- C4 at a stable remote `1.2.3` against the current `1.2.4`. -/
theorem Check_no_update_of_not_greater_witness :
    (mockProvider ⟨newSemver "1.2.3", "http://host/path/version", false⟩ none).Latest () =
        ((⟨newSemver "1.2.3", "http://host/path/version", false⟩, none), ()) ∧
    ((newSemver "1.2.3").LT (newSemver "1.2.4") = true ∨
      (newSemver "1.2.3").Equals (newSemver "1.2.4") = true) ∧
    ∃ r : CheckResponse,
      Uptd.Check ⟨some (mockProvider ⟨newSemver "1.2.3", "http://host/path/version", false⟩
        none), newSemver "1.2.4"⟩ () = some ((r, none), ()) ∧
      r.NeedsUpdate = false :=
  ⟨rfl, Or.inl (by decide), Check_no_update_of_not_greater _ (newSemver "1.2.4") () ()
    ⟨newSemver "1.2.3", "http://host/path/version", false⟩ rfl (Or.inl (by decide))⟩

/-! ## The GitHub provider -/

/-- C5: end to end, for a checker over a `GithubProvider` whose lookup returns a
release with a valid tag (a semantic version string `s`, with or without the
prefix `v`) strictly greater than the current version, with HTML URL `url` and
with draft or prerelease set to true, `Check` succeeds with `NeedsUpdate`
false, `Latest.Version` the parsed tag, `Latest.URL` equal to `url` and
`Latest.PreRelease` true. -/
theorem Check_github_prerelease_no_update {σ : Type} (g : GithubProvider σ)
    (c : semver.Version) (w w1 : σ) (r : RepositoryRelease) (t s url : String)
    (hlook : g.latestFunc g.owner g.repo w = ((some r, none), w1))
    (htag : r.TagName = some t) (hts : t = s ∨ t = "v" ++ s)
    (hs : semver.IsSemver s) (_hgt : (semver.Parse s).1.GT c = true)
    (hurl : r.HTMLURL = some url)
    (hflag : r.Draft = some true ∨ r.Prerelease = some true) :
    Uptd.Check ⟨some g.asProvider, c⟩ w =
      some ((⟨false, c, ⟨(semver.Parse s).1, url, true⟩⟩, none), w1) := by
  have hp := Parse_of_IsSemver s hs
  have htrim : stringsTrimPrefix (GetTagName (some r)) "v" = s := by
    simp only [GetTagName, htag]
    rcases hts with rfl | rfl
    · exact Parse_ok_trimPrefix _ (by rw [hp])
    · exact stringsTrimPrefix_v_append s
  have hL := Latest_of_parse_ok g w w1 (some r) (newSemver s) hlook (by rw [htrim, hp])
  have hpre : (GetPrerelease (some r) || GetDraft (some r)) = true := by
    rcases hflag with hd | hp
    · simp [GetDraft, hd]
    · simp [GetPrerelease, hp]
  have hu : GetHTMLURL (some r) = url := by simp [GetHTMLURL, hurl]
  rw [hpre, hu] at hL
  rw [Check_of_Latest_ok g.asProvider c w w1 _ hL]
  simp [newSemver]

/-- C5 at a draft release tagged `v99.99.99` against the current `99.99.98`. -/
theorem Check_github_prerelease_no_update_witness :
    newLatestMockFunc (some ⟨some "v99.99.99", none, some "http://host/path/version",
        some true, none⟩) none "" "" () =
      ((some ⟨some "v99.99.99", none, some "http://host/path/version", some true, none⟩,
        none), ()) ∧
    semver.IsSemver "99.99.99" ∧
    (semver.Parse "99.99.99").1.GT (newSemver "99.99.98") = true ∧
    Uptd.Check ⟨some (GithubProvider.asProvider ⟨newLatestMockFunc
        (some ⟨some "v99.99.99", none, some "http://host/path/version", some true, none⟩)
        none, "", ""⟩), newSemver "99.99.98"⟩ () =
      some ((⟨false, ⟨99, 99, 98, [], []⟩,
        ⟨⟨99, 99, 99, [], []⟩, "http://host/path/version", true⟩⟩, none), ()) :=
  ⟨rfl, (semver.Parse_ok_iff_IsSemver _).mp (by decide), by decide,
    Check_github_prerelease_no_update
      ⟨newLatestMockFunc
        (some ⟨some "v99.99.99", none, some "http://host/path/version", some true, none⟩)
        none, "", ""⟩
      (newSemver "99.99.98") () ()
      ⟨some "v99.99.99", none, some "http://host/path/version", some true, none⟩
      "v99.99.99" "99.99.99" "http://host/path/version"
      rfl rfl (Or.inr (by decide)) ((semver.Parse_ok_iff_IsSemver _).mp (by decide))
      (by decide) rfl (Or.inl rfl)⟩

/-- C6: for a release returned by a successful lookup whose tag parses, `Latest`
succeeds and `PreRelease` is the release's prerelease flag or its draft flag,
an absent flag counting as false; so `PreRelease` is false exactly when
neither flag is set to true. -/
theorem Latest_PreRelease_is_prerelease_or_draft {σ : Type} (g : GithubProvider σ)
    (w w1 : σ) (r : RepositoryRelease) (t : String) (v : semver.Version)
    (hlook : g.latestFunc g.owner g.repo w = ((some r, none), w1))
    (htag : r.TagName = some t)
    (hparse : semver.Parse (stringsTrimPrefix t "v") = (v, none)) :
    ∃ L : LatestResponse, g.Latest w = ((L, none), w1) ∧
      L.PreRelease = (r.Prerelease.getD false || r.Draft.getD false) ∧
      (L.PreRelease = false ↔ (r.Prerelease ≠ some true ∧ r.Draft ≠ some true)) := by
  have hL := Latest_of_parse_ok g w w1 (some r) v hlook
    (by simpa only [GetTagName, htag] using hparse)
  refine ⟨_, hL, ?_, ?_⟩
  · cases hp : r.Prerelease <;> cases hd : r.Draft <;> simp [GetPrerelease, GetDraft, hp, hd]
  · cases hp : r.Prerelease <;> cases hd : r.Draft <;> simp [GetPrerelease, GetDraft, hp, hd]

/-- C6 at the draft release of `TestGithubProviderLatest`, tagged `99.99.99`. -/
theorem Latest_PreRelease_is_prerelease_or_draft_witness :
    newLatestMockFunc (some ⟨some "99.99.99", none, some "https://host/path/version",
        some true, none⟩) none "" "" () =
      ((some ⟨some "99.99.99", none, some "https://host/path/version", some true, none⟩,
        none), ()) ∧
    semver.Parse (stringsTrimPrefix "99.99.99" "v") = (⟨99, 99, 99, [], []⟩, none) ∧
    ∃ L : LatestResponse,
      GithubProvider.Latest ⟨newLatestMockFunc (some ⟨some "99.99.99", none,
        some "https://host/path/version", some true, none⟩) none, "", ""⟩ () =
        ((L, none), ()) ∧
      L.PreRelease = ((none : Option Bool).getD false || (some true).getD false) ∧
      (L.PreRelease = false ↔
        ((none : Option Bool) ≠ some true ∧ (some true : Option Bool) ≠ some true)) :=
  ⟨rfl, by decide,
    Latest_PreRelease_is_prerelease_or_draft
      ⟨newLatestMockFunc (some ⟨some "99.99.99", none, some "https://host/path/version",
        some true, none⟩) none, "", ""⟩ () ()
      ⟨some "99.99.99", none, some "https://host/path/version", some true, none⟩
      "99.99.99" ⟨99, 99, 99, [], []⟩ rfl rfl (by decide)⟩

/-- C7: for a valid semantic version string `s`, `Latest` on a release tagged
`"v" ++ s` and on a release tagged `s`, with the same other fields and the
lookup succeeding, both succeed and return the same `LatestResponse`, whose
`Version` is the parse of `s`. -/
theorem Latest_v_prefix_irrelevant {σ : Type} (g1 g2 : GithubProvider σ)
    (w w1 w2 : σ) (r : RepositoryRelease) (s : String) (hs : semver.IsSemver s)
    (h1 : g1.latestFunc g1.owner g1.repo w =
      ((some { r with TagName := some ("v" ++ s) }, none), w1))
    (h2 : g2.latestFunc g2.owner g2.repo w =
      ((some { r with TagName := some s }, none), w2)) :
    ∃ L : LatestResponse, g1.Latest w = ((L, none), w1) ∧ g2.Latest w = ((L, none), w2) ∧
      L.Version = (semver.Parse s).1 := by
  have hp := Parse_of_IsSemver s hs
  have e1 := Latest_of_parse_ok g1 w w1 _ (newSemver s) h1
    (by simp only [GetTagName]; rw [stringsTrimPrefix_v_append, hp])
  have e2 := Latest_of_parse_ok g2 w w2 _ (newSemver s) h2
    (by simp only [GetTagName]; rw [Parse_ok_trimPrefix s (by rw [hp]), hp])
  exact ⟨_, e1, e2, rfl⟩

/-- C7 at the tags `v2.0.1` and `2.0.1`, which both give version `2.0.1`. -/
theorem Latest_v_prefix_irrelevant_witness :
    semver.IsSemver "2.0.1" ∧
    ∃ L : LatestResponse,
      GithubProvider.Latest ⟨newLatestMockFunc (some ⟨some "v2.0.1", none,
        some "https://host/path/version", none, none⟩) none, "", ""⟩ () = ((L, none), ()) ∧
      GithubProvider.Latest ⟨newLatestMockFunc (some ⟨some "2.0.1", none,
        some "https://host/path/version", none, none⟩) none, "", ""⟩ () = ((L, none), ()) ∧
      L.Version = ⟨2, 0, 1, [], []⟩ :=
  ⟨(semver.Parse_ok_iff_IsSemver _).mp (by decide),
    Latest_v_prefix_irrelevant
      ⟨newLatestMockFunc (some ⟨some "v2.0.1", none, some "https://host/path/version",
        none, none⟩) none, "", ""⟩
      ⟨newLatestMockFunc (some ⟨some "2.0.1", none, some "https://host/path/version",
        none, none⟩) none, "", ""⟩
      () () () ⟨none, none, some "https://host/path/version", none, none⟩ "2.0.1"
      ((semver.Parse_ok_iff_IsSemver _).mp (by decide)) rfl rfl⟩

/-- C8: on the release of the first case of `TestGithubProviderLatest`, which
sets only `Name` to `99.99.99` and the HTML URL, `Latest` reads the absent tag
name, parses the empty string and returns the zero `LatestResponse` with an
error, where the test expects version `99.99.99` and no error. -/
theorem Latest_release_with_Name_only_fails :
    GithubProvider.Latest ⟨newLatestMockFunc (some ⟨none, some "99.99.99",
      some "https://host/path/version", none, none⟩) none, "", ""⟩ () =
      ((⟨⟨0, 0, 0, [], []⟩, "", false⟩, some (.invalidVersion "Version string empty")),
        ()) := by
  decide

/-- C9: when the lookup succeeds, `Latest` fails if and only if the release's
tag, after a leading `v` is removed, does not conform to the grammar of
semantic versions; when it fails it returns the zero `LatestResponse` with
the error, and when it succeeds the error is `nil`. -/
theorem Latest_fails_iff_tag_invalid {σ : Type} (g : GithubProvider σ) (w w1 : σ)
    (rel : Option RepositoryRelease)
    (hlook : g.latestFunc g.owner g.repo w = ((rel, none), w1)) :
    ((g.Latest w).1.2 ≠ none ↔
      ¬ semver.IsSemver (stringsTrimPrefix (GetTagName rel) "v")) ∧
    (¬ semver.IsSemver (stringsTrimPrefix (GetTagName rel) "v") →
      ∃ e, g.Latest w = ((⟨⟨0, 0, 0, [], []⟩, "", false⟩, some e), w1)) ∧
    (semver.IsSemver (stringsTrimPrefix (GetTagName rel) "v") →
      ∃ L, g.Latest w = ((L, none), w1)) := by
  rw [← semver.Parse_ok_iff_IsSemver]
  rcases hp : semver.Parse (stringsTrimPrefix (GetTagName rel) "v") with ⟨v, _ | e⟩
  · rw [Latest_of_parse_ok g w w1 rel v hlook hp]
    simp
  · rw [Latest_of_parse_err g w w1 rel v e hlook hp]
    simp [default_LatestResponse]

/-- C9 at the tag `WHATISTHISVERSION`, which is rejected. -/
theorem Latest_fails_iff_tag_invalid_witness :
    newLatestMockFunc (some ⟨some "WHATISTHISVERSION", none, none, none, none⟩) none
      "" "" () = ((some ⟨some "WHATISTHISVERSION", none, none, none, none⟩, none), ()) ∧
    ¬ semver.IsSemver "WHATISTHISVERSION" ∧
    (((GithubProvider.Latest ⟨newLatestMockFunc (some ⟨some "WHATISTHISVERSION", none, none,
        none, none⟩) none, "", ""⟩ ()).1.2 ≠ none ↔
      ¬ semver.IsSemver (stringsTrimPrefix (GetTagName (some ⟨some "WHATISTHISVERSION",
        none, none, none, none⟩)) "v")) ∧
    (¬ semver.IsSemver (stringsTrimPrefix (GetTagName (some ⟨some "WHATISTHISVERSION",
        none, none, none, none⟩)) "v") →
      ∃ e, GithubProvider.Latest ⟨newLatestMockFunc (some ⟨some "WHATISTHISVERSION", none,
        none, none, none⟩) none, "", ""⟩ () =
        ((⟨⟨0, 0, 0, [], []⟩, "", false⟩, some e), ())) ∧
    (semver.IsSemver (stringsTrimPrefix (GetTagName (some ⟨some "WHATISTHISVERSION",
        none, none, none, none⟩)) "v") →
      ∃ L, GithubProvider.Latest ⟨newLatestMockFunc (some ⟨some "WHATISTHISVERSION", none,
        none, none, none⟩) none, "", ""⟩ () = ((L, none), ()))) :=
  ⟨rfl, fun h => absurd ((semver.Parse_ok_iff_IsSemver _).mpr h) (by decide),
    Latest_fails_iff_tag_invalid
      ⟨newLatestMockFunc (some ⟨some "WHATISTHISVERSION", none, none, none, none⟩) none,
        "", ""⟩ () () (some ⟨some "WHATISTHISVERSION", none, none, none, none⟩) rfl⟩

/-- C10: when the lookup function returns an error `e`, whatever release comes
with it, `Latest` returns exactly `e` together with the zero
`LatestResponse`. -/
theorem Latest_lookup_error_verbatim {σ : Type} (g : GithubProvider σ) (w w1 : σ)
    (rel : Option RepositoryRelease) (e : GoError)
    (hlook : g.latestFunc g.owner g.repo w = ((rel, some e), w1)) :
    g.Latest w = ((⟨⟨0, 0, 0, [], []⟩, "", false⟩, some e), w1) := by
  rw [Latest_of_lookup_err g w w1 rel e hlook, default_LatestResponse]

/-- C10 at a lookup that returns the error `"ERROR"` next to a release with a
valid tag. -/
theorem Latest_lookup_error_verbatim_witness :
    newLatestMockFunc (some ⟨some "99.99.99", none, some "https://host/path/version",
        none, none⟩) (some (.errorsNew "ERROR")) "" "" () =
      ((some ⟨some "99.99.99", none, some "https://host/path/version", none, none⟩,
        some (.errorsNew "ERROR")), ()) ∧
    GithubProvider.Latest ⟨newLatestMockFunc (some ⟨some "99.99.99", none,
        some "https://host/path/version", none, none⟩) (some (.errorsNew "ERROR")), "", ""⟩
        () =
      ((⟨⟨0, 0, 0, [], []⟩, "", false⟩, some (.errorsNew "ERROR")), ()) :=
  ⟨rfl, Latest_lookup_error_verbatim
    ⟨newLatestMockFunc (some ⟨some "99.99.99", none, some "https://host/path/version",
      none, none⟩) (some (.errorsNew "ERROR")), "", ""⟩ () ()
    (some ⟨some "99.99.99", none, some "https://host/path/version", none, none⟩)
    (.errorsNew "ERROR") rfl⟩

/-! ## Construction: `New` and `NewGithubProvider` -/

/-- C11: for every provider `p` and string `s`, `New p s` fails if and only if `s`
is not a semantic version `MAJOR.MINOR.PATCH[-PRERELEASE][+BUILD]`; on failure
it returns the zero `Uptd` with the parse error, and on success it returns an
`Uptd` holding exactly `p` and the parsed version, with a `nil` error. The
string `99.99.99` succeeds and `WHATISTHISVERSION` fails. -/
theorem New_fails_iff_not_semver {σ : Type} (p : Option (Provider σ)) (s : String) :
    ((∃ u e, New p s = some (u, some e)) ↔ ¬ semver.IsSemver s) ∧
    (¬ semver.IsSemver s → ∃ e, (semver.Parse s).2 = some e ∧
      New p s = some (⟨none, ⟨0, 0, 0, [], []⟩⟩, some e)) ∧
    (semver.IsSemver s → New p s = some (⟨p, (semver.Parse s).1⟩, none)) ∧
    New p "99.99.99" = some (⟨p, ⟨99, 99, 99, [], []⟩⟩, none) ∧
    (∃ e, New p "WHATISTHISVERSION" = some (⟨none, ⟨0, 0, 0, [], []⟩⟩, some e)) := by
  refine ⟨?_, ?_, ?_, rfl, ⟨_, rfl⟩⟩
  · rw [← semver.Parse_ok_iff_IsSemver]
    rcases hp : semver.Parse s with ⟨v, _ | e⟩
    · simp [New, semver.New, hp]
    · simp [New, semver.New, hp]
  · rw [← semver.Parse_ok_iff_IsSemver]
    rcases hp : semver.Parse s with ⟨v, _ | e⟩
    · simp
    · intro _
      refine ⟨e, rfl, ?_⟩
      simp only [New, semver.New, hp]
      rfl
  · intro h
    simp only [New, semver.New, Parse_of_IsSemver s h]

/-- C11 at the two strings of `TestNew`, over a provider that, like the
`nilProvider` of the test, returns the zero response and no error. -/
theorem New_fails_iff_not_semver_witness :
    semver.IsSemver "99.99.99" ∧ ¬ semver.IsSemver "WHATISTHISVERSION" ∧
    New (some (mockProvider default none)) "99.99.99" =
      some (⟨some (mockProvider default none), ⟨99, 99, 99, [], []⟩⟩, none) ∧
    ∃ e, New (some (mockProvider default none)) "WHATISTHISVERSION" =
      some (⟨none, ⟨0, 0, 0, [], []⟩⟩, some e) :=
  ⟨(semver.Parse_ok_iff_IsSemver _).mp (by decide),
    fun h => absurd ((semver.Parse_ok_iff_IsSemver _).mpr h) (by decide),
    (New_fails_iff_not_semver (some (mockProvider default none)) "99.99.99").2.2.2.1,
    (New_fails_iff_not_semver (some (mockProvider default none)) "99.99.99").2.2.2.2⟩

/-- C12: the checker does not strip a `v` from the current version: for every
string `s`, `New p ("v" ++ s)` fails with the zero `Uptd`, also when `s` is a
valid semantic version, for which `GithubProvider.Latest` accepts the tag
`"v" ++ s`. -/
theorem New_v_prefix_fails {σ : Type} (p : Option (Provider σ)) (s : String) :
    (∃ e, New p ("v" ++ s) = some (⟨none, ⟨0, 0, 0, [], []⟩⟩, some e)) ∧
    (semver.IsSemver s →
      ∀ (g : GithubProvider σ) (w w1 : σ) (r : RepositoryRelease),
        g.latestFunc g.owner g.repo w =
          ((some { r with TagName := some ("v" ++ s) }, none), w1) →
        ∃ L, g.Latest w = ((L, none), w1) ∧ L.Version = (semver.Parse s).1) := by
  constructor
  · have hv : (semver.Parse ("v" ++ s)).2 ≠ none := by
      have := Parse_v_fails s.data
      simpa [String.ext_iff] using this
    rcases hp : semver.Parse ("v" ++ s) with ⟨v, _ | e⟩
    · rw [hp] at hv
      exact absurd rfl hv
    · refine ⟨e, ?_⟩
      simp only [New, semver.New, hp]
      rfl
  · intro hs g w w1 r hlook
    have hp := Parse_of_IsSemver s hs
    exact ⟨_, Latest_of_parse_ok g w w1 _ (newSemver s) hlook
      (by simp only [GetTagName]; rw [stringsTrimPrefix_v_append, hp]), rfl⟩

/-- C12 at `v1.4.0`: `New` rejects it as the current version and `Latest` accepts
it as a tag. -/
theorem New_v_prefix_fails_witness :
    semver.IsSemver "1.4.0" ∧
    (∃ e, New (some (mockProvider default none)) ("v" ++ "1.4.0") =
      some (⟨none, ⟨0, 0, 0, [], []⟩⟩, some e)) ∧
    ∃ L, GithubProvider.Latest ⟨newLatestMockFunc (some ⟨some ("v" ++ "1.4.0"), none, none,
      none, none⟩) none, "", ""⟩ () = ((L, none), ()) ∧
      L.Version = (semver.Parse "1.4.0").1 :=
  ⟨(semver.Parse_ok_iff_IsSemver _).mp (by decide),
    (New_v_prefix_fails (some (mockProvider default none)) "1.4.0").1,
    (New_v_prefix_fails (some (mockProvider default none)) "1.4.0").2
      ((semver.Parse_ok_iff_IsSemver _).mp (by decide))
      ⟨newLatestMockFunc (some ⟨some ("v" ++ "1.4.0"), none, none, none, none⟩) none,
        "", ""⟩ () () ⟨none, none, none, none, none⟩ rfl⟩

/-- C13: for all owner and repo strings, `NewGithubProvider` fails with the
missing-token error and returns the `nil` provider if and only if the token is
the empty string; for every non-empty token it succeeds with a provider bound
to exactly the given owner and repo. -/
theorem NewGithubProvider_fails_iff_token_empty {σ : Type}
    (getLatestRelease : String → GetLatestFunc σ) (owner repo token : String) :
    ((NewGithubProvider getLatestRelease owner repo token).2 ≠ none ↔ token = "") ∧
    (token = "" →
      (NewGithubProvider getLatestRelease owner repo token).1.isNone = true ∧
      (NewGithubProvider getLatestRelease owner repo token).2 =
        some .errPersonalAccessTokenIsMissing) ∧
    (token ≠ "" →
      ∃ g : GithubProvider σ,
        (NewGithubProvider getLatestRelease owner repo token).1 = some g ∧
        (NewGithubProvider getLatestRelease owner repo token).2 = none ∧
        g.owner = owner ∧ g.repo = repo ∧ g.latestFunc = getLatestRelease token) := by
  unfold NewGithubProvider
  by_cases h : token = ""
  · simp [h]
  · simp [h]

/-- C13 at the two cases of `TestNewGithubProvider`: the token `atoken` and the
empty token, with owner `anowner` and repo `arepo`. -/
theorem NewGithubProvider_fails_iff_token_empty_witness :
    (∃ g : GithubProvider Unit,
      (NewGithubProvider (fun _ => newLatestMockFunc none none) "anowner" "arepo"
        "atoken").1 = some g ∧
      (NewGithubProvider (fun _ => newLatestMockFunc none none) "anowner" "arepo"
        "atoken").2 = none ∧
      g.owner = "anowner" ∧ g.repo = "arepo" ∧
      g.latestFunc = (fun _ => newLatestMockFunc none none) "atoken") ∧
    (NewGithubProvider (fun _ => newLatestMockFunc none none) "anowner" "arepo"
      "").1.isNone = true ∧
    (NewGithubProvider (fun _ => newLatestMockFunc none none) "anowner" "arepo" "").2 =
      some .errPersonalAccessTokenIsMissing :=
  ⟨(NewGithubProvider_fails_iff_token_empty (fun _ => newLatestMockFunc none none)
      "anowner" "arepo" "atoken").2.2 (by decide),
    (NewGithubProvider_fails_iff_token_empty (fun _ => newLatestMockFunc none none)
      "anowner" "arepo" "").2.1 rfl⟩

/-! ## Effects of `Check` -/

/-- C16: each call to `Check` makes exactly one call to the provider's `Latest`,
on the success path and on the error path alike: over the counting provider
the counter goes from `n` to `n + 1`, and the world after `Check` is the world
after one `Latest`. The checker is a value that `Check` does not change, so a
second `Check` in a world where the provider gives the same answer returns the
same response and error. `New` makes no provider call: it takes no world
state, keeps the provider as it is, and its version and error do not depend
on the provider. -/
theorem Check_calls_Latest_once {σ : Type} (p : Provider σ) (c : semver.Version)
    (w : σ) (n : Nat) :
    (∃ r, Uptd.Check ⟨some p.counted, c⟩ (w, n) = some (r, ((p.Latest w).2, n + 1))) ∧
    (∃ r, Uptd.Check ⟨some p, c⟩ w = some (r, (p.Latest w).2)) ∧
    (∀ w2 : σ, (p.Latest w2).1 = (p.Latest w).1 →
      (Uptd.Check ⟨some p, c⟩ w2).map Prod.fst = (Uptd.Check ⟨some p, c⟩ w).map Prod.fst) ∧
    (∀ (s : String) (q : Option (Provider σ)),
      (New (some p) s).map (fun r => (r.1.current, r.2)) =
        (New q s).map (fun r => (r.1.current, r.2)) ∧
      ∀ u, New (some p) s = some (u, none) → u.provider = some p) := by
  refine ⟨?_, ?_, ?_, ?_⟩
  · simp only [Uptd.Check, Provider.counted]
    rcases h : p.Latest w with ⟨⟨L, _ | e⟩, w1⟩ <;> simp
  · simp only [Uptd.Check]
    rcases h : p.Latest w with ⟨⟨L, _ | e⟩, w1⟩ <;> simp
  · intro w2 h2
    simp only [Uptd.Check]
    rcases h : p.Latest w with ⟨⟨L, _ | e⟩, w1⟩ <;>
      rcases h' : p.Latest w2 with ⟨⟨L', _ | e'⟩, w1'⟩ <;>
      simp [h, h'] at h2 ⊢ <;> simp [h2]
  · intro s q
    simp only [New]
    rcases hn : semver.New s with ⟨_ | v, _ | e⟩
    · simp
    · simp
    · simp only [Option.map_some', true_and]
      intro u hu
      simp only [Option.some.injEq, Prod.mk.injEq, and_true] at hu
      rw [← hu]
    · simp

/-- C16 at the two providers of `TestUptdCheck`, the one that answers `99.99.99`
and the one that fails with `"ERROR"`: the counter goes from `0` to `1` on
both. -/
theorem Check_calls_Latest_once_witness :
    (∃ r, Uptd.Check ⟨some (mockProvider ⟨newSemver "99.99.99", "http://host/path/version",
      false⟩ none).counted, newSemver "99.99.98"⟩ ((), 0) = some (r, ((), 0 + 1))) ∧
    (∃ r, Uptd.Check ⟨some (mockProvider default (some (.errorsNew "ERROR"))).counted,
      newSemver "99.99.98"⟩ ((), 0) = some (r, ((), 0 + 1))) :=
  ⟨(Check_calls_Latest_once (mockProvider ⟨newSemver "99.99.99",
      "http://host/path/version", false⟩ none) (newSemver "99.99.98") () 0).1,
    (Check_calls_Latest_once (mockProvider default (some (.errorsNew "ERROR")))
      (newSemver "99.99.98") () 0).1⟩

/-! ## Build metadata -/

/-- C15: build metadata is ignored by the update decision. When the provider's
version differs from the current version only in build metadata, `NeedsUpdate`
is false; and replacing the build metadata of the provider's version by `b1`
and that of the current version by `b2` leaves `NeedsUpdate` as it was. -/
theorem Check_ignores_build_metadata {σ : Type} (p q : Provider σ) (c : semver.Version)
    (w w1 w2 w3 : σ) (L : LatestResponse) (b1 b2 : List String)
    (h : p.Latest w = ((L, none), w1))
    (hq : q.Latest w2 =
      ((⟨{ L.Version with Build := b1 }, L.URL, L.PreRelease⟩, none), w3)) :
    (L.Version.Major = c.Major ∧ L.Version.Minor = c.Minor ∧ L.Version.Patch = c.Patch ∧
      L.Version.Pre = c.Pre →
      ∃ r : CheckResponse, Uptd.Check ⟨some p, c⟩ w = some ((r, none), w1) ∧
        r.NeedsUpdate = false) ∧
    (∃ r r2 : CheckResponse, Uptd.Check ⟨some p, c⟩ w = some ((r, none), w1) ∧
      Uptd.Check ⟨some q, { c with Build := b2 }⟩ w2 = some ((r2, none), w3) ∧
      r2.NeedsUpdate = r.NeedsUpdate) := by
  constructor
  · rintro ⟨h1, h2, h3, h4⟩
    refine ⟨_, Check_of_Latest_ok p c w w1 L h, ?_⟩
    simp [semver.Version.GT, semver.Version_Compare_eq_zero_of_same _ _ h1 h2 h3 h4]
  · exact ⟨_, _, Check_of_Latest_ok p c w w1 L h,
      Check_of_Latest_ok q _ w2 w3 _ hq, rfl⟩

/-- C15 at the current version `1.0.0+a` and the remote version `1.0.0+b`. -/
theorem Check_ignores_build_metadata_witness :
    (mockProvider ⟨newSemver "1.0.0+b", "http://host/path/version", false⟩ none).Latest () =
      ((⟨newSemver "1.0.0+b", "http://host/path/version", false⟩, none), ()) ∧
    ((newSemver "1.0.0+b").Major = (newSemver "1.0.0+a").Major ∧
      (newSemver "1.0.0+b").Minor = (newSemver "1.0.0+a").Minor ∧
      (newSemver "1.0.0+b").Patch = (newSemver "1.0.0+a").Patch ∧
      (newSemver "1.0.0+b").Pre = (newSemver "1.0.0+a").Pre) ∧
    (newSemver "1.0.0+b").Build ≠ (newSemver "1.0.0+a").Build ∧
    ((newSemver "1.0.0+b").Major = (newSemver "1.0.0+a").Major ∧
      (newSemver "1.0.0+b").Minor = (newSemver "1.0.0+a").Minor ∧
      (newSemver "1.0.0+b").Patch = (newSemver "1.0.0+a").Patch ∧
      (newSemver "1.0.0+b").Pre = (newSemver "1.0.0+a").Pre →
      ∃ r : CheckResponse,
        Uptd.Check ⟨some (mockProvider ⟨newSemver "1.0.0+b", "http://host/path/version",
          false⟩ none), newSemver "1.0.0+a"⟩ () = some ((r, none), ()) ∧
        r.NeedsUpdate = false) ∧
    (∃ r r2 : CheckResponse,
      Uptd.Check ⟨some (mockProvider ⟨newSemver "1.0.0+b", "http://host/path/version",
        false⟩ none), newSemver "1.0.0+a"⟩ () = some ((r, none), ()) ∧
      Uptd.Check ⟨some (mockProvider ⟨newSemver "1.0.0+c.1", "http://host/path/version",
        false⟩ none), newSemver "1.0.0"⟩ () = some ((r2, none), ()) ∧
      r2.NeedsUpdate = r.NeedsUpdate) :=
  ⟨rfl, by decide, by decide, Check_ignores_build_metadata
    (mockProvider ⟨newSemver "1.0.0+b", "http://host/path/version", false⟩ none)
    (mockProvider ⟨newSemver "1.0.0+c.1", "http://host/path/version", false⟩ none)
    (newSemver "1.0.0+a") () () () ()
    ⟨newSemver "1.0.0+b", "http://host/path/version", false⟩ ["c", "1"] [] rfl rfl⟩

/-! ## Tags that are not accepted -/

/-- C17: `Latest` removes at most one leading lowercase `v` and nothing else. For
every string `s`, valid semantic versions included, a successful lookup whose
release is `nil`, has no tag, has the empty tag, or has the tag `"vv" ++ s` or
`"V" ++ s` makes `Latest` return an error with the zero `LatestResponse`. -/
theorem Latest_rejects_other_prefixes {σ : Type} (g : GithubProvider σ) (w w1 : σ)
    (rel : Option RepositoryRelease) (s : String)
    (hlook : g.latestFunc g.owner g.repo w = ((rel, none), w1))
    (htag : rel = none ∨ ∃ r, rel = some r ∧
      (r.TagName = none ∨ r.TagName = some "" ∨ r.TagName = some ("vv" ++ s) ∨
        r.TagName = some ("V" ++ s))) :
    ∃ e, g.Latest w = ((⟨⟨0, 0, 0, [], []⟩, "", false⟩, some e), w1) := by
  have hfail : (semver.Parse (stringsTrimPrefix (GetTagName rel) "v")).2 ≠ none := by
    rcases htag with rfl | ⟨r, rfl, ht | ht | ht | ht⟩
    · decide
    · simp only [GetTagName, ht]
      decide
    · simp only [GetTagName, ht]
      decide
    · simp only [GetTagName, ht]
      have e1 : stringsTrimPrefix ("vv" ++ s) "v" = String.mk ('v' :: s.data) := by
        simp [stringsTrimPrefix, stringsHasPrefix]
      rw [e1]
      exact Parse_v_fails s.data
    · simp only [GetTagName, ht]
      have e1 : stringsTrimPrefix ("V" ++ s) "v" = String.mk ('V' :: s.data) := by
        simp [stringsTrimPrefix, stringsHasPrefix, String.ext_iff]
      rw [e1]
      exact semver.Parse_fails_of_head 'V' s.data (by decide)
  rcases hp : semver.Parse (stringsTrimPrefix (GetTagName rel) "v") with ⟨v, _ | e⟩
  · rw [hp] at hfail
    exact absurd rfl hfail
  · exact ⟨e, by rw [Latest_of_parse_err g w w1 rel v e hlook hp, default_LatestResponse]⟩

/-- C17 at the tag `vv1.2.3`. -/
theorem Latest_rejects_other_prefixes_witness :
    newLatestMockFunc (some ⟨some "vv1.2.3", none, none, none, none⟩) none "" "" () =
      ((some ⟨some "vv1.2.3", none, none, none, none⟩, none), ()) ∧
    semver.IsSemver "1.2.3" ∧
    ∃ e, GithubProvider.Latest ⟨newLatestMockFunc (some ⟨some "vv1.2.3", none, none, none,
      none⟩) none, "", ""⟩ () = ((⟨⟨0, 0, 0, [], []⟩, "", false⟩, some e), ()) :=
  ⟨rfl, (semver.Parse_ok_iff_IsSemver _).mp (by decide),
    Latest_rejects_other_prefixes
      ⟨newLatestMockFunc (some ⟨some "vv1.2.3", none, none, none, none⟩) none, "", ""⟩
      () () (some ⟨some "vv1.2.3", none, none, none, none⟩) "1.2.3" rfl
      (Or.inr ⟨_, rfl, Or.inr (Or.inr (Or.inl (by decide)))⟩)⟩

/-! ## Precedence -/

/-- C14: the relation `GT` that `Check` applies follows semantic-versioning
precedence on parsed version strings. Major, then minor, then patch are
compared numerically; a version with prerelease identifiers is lower than the
same numbers without them; `GT` is irreflexive and transitive; and for two
versions exactly one holds of `a.GT b`, `b.GT a` and equality up to build
metadata. In particular `1.2.3 < 1.2.4 < 1.3.0 < 2.0.0` and
`1.0.0-alpha < 1.0.0`. -/
theorem GT_is_semver_precedence (sa sb sc : String) (a b c : semver.Version)
    (ha : semver.Parse sa = (a, none)) (hb : semver.Parse sb = (b, none))
    (_hc : semver.Parse sc = (c, none)) :
    ((b.Major < a.Major → a.GT b = true) ∧
      (a.Major = b.Major → b.Minor < a.Minor → a.GT b = true) ∧
      (a.Major = b.Major → a.Minor = b.Minor → b.Patch < a.Patch → a.GT b = true)) ∧
    (a.Major = b.Major → a.Minor = b.Minor → a.Patch = b.Patch → a.Pre = [] →
      b.Pre ≠ [] → a.GT b = true) ∧
    a.GT a = false ∧
    (a.GT b = true → b.GT c = true → a.GT c = true) ∧
    ((a.GT b = true ∨ b.GT a = true ∨
        (a.Major = b.Major ∧ a.Minor = b.Minor ∧ a.Patch = b.Patch ∧ a.Pre = b.Pre)) ∧
      ¬ (a.GT b = true ∧ b.GT a = true) ∧
      ¬ (a.GT b = true ∧
        (a.Major = b.Major ∧ a.Minor = b.Minor ∧ a.Patch = b.Patch ∧ a.Pre = b.Pre)) ∧
      ¬ (b.GT a = true ∧
        (a.Major = b.Major ∧ a.Minor = b.Minor ∧ a.Patch = b.Patch ∧ a.Pre = b.Pre))) ∧
    ((newSemver "1.2.4").GT (newSemver "1.2.3") = true ∧
      (newSemver "1.3.0").GT (newSemver "1.2.4") = true ∧
      (newSemver "2.0.0").GT (newSemver "1.3.0") = true ∧
      (newSemver "1.0.0").GT (newSemver "1.0.0-alpha") = true) := by
  have hz := semver.Version_Compare_eq_zero_iff a b
    (semver.Parse_Pre_canonical sa a ha) (semver.Parse_Pre_canonical sb b hb)
  have hsw := semver.Version_Compare_swap a b
  have hr := semver.Version_Compare_range a b
  refine ⟨⟨?_, ?_, ?_⟩, ?_, ?_, ?_, ⟨?_, ?_, ?_, ?_⟩, by decide⟩
  · intro h
    have h1 : a.Major ≠ b.Major := by omega
    simp [semver.Version.GT, semver.Version.Compare, h1, h]
  · intro h1 h
    have h2 : a.Minor ≠ b.Minor := by omega
    simp [semver.Version.GT, semver.Version.Compare, h1, h2, h]
  · intro h1 h2 h
    have h3 : a.Patch ≠ b.Patch := by omega
    simp [semver.Version.GT, semver.Version.Compare, h1, h2, h3, h]
  · intro h1 h2 h3 h4 h5
    have h6 : 0 < b.Pre.length := List.length_pos.mpr h5
    have h7 : b.Pre.length ≠ 0 := by omega
    simp [semver.Version.GT, semver.Version.Compare, h1, h2, h3, h4, h6, h7]
  · simp [semver.Version.GT, semver.Version_Compare_eq_zero_of_same a a rfl rfl rfl rfl]
  · intro hab hbc
    simp only [semver.Version.GT, beq_iff_eq] at hab hbc ⊢
    have hr2 := semver.Version_Compare_range a c
    have t := semver.Version_Compare_le_trans c b a
    have t2 := semver.Version_Compare_le_trans a c b
    rw [semver.Version_Compare_swap b c, semver.Version_Compare_swap a b] at t
    rw [semver.Version_Compare_swap b c] at t2
    omega
  · simp only [semver.Version.GT, beq_iff_eq, ← hz]
    omega
  · simp only [semver.Version.GT, beq_iff_eq]
    omega
  · simp only [semver.Version.GT, beq_iff_eq, ← hz]
    omega
  · simp only [semver.Version.GT, beq_iff_eq, ← hz]
    omega

/-- C14 at the strings `1.0.0`, `1.0.0-alpha` and `0.9.0+build`. -/
theorem GT_is_semver_precedence_witness :
    semver.Parse "1.0.0" = (⟨1, 0, 0, [], []⟩, none) ∧
    semver.Parse "1.0.0-alpha" = (⟨1, 0, 0, [⟨"alpha", 0, false⟩], []⟩, none) ∧
    semver.Parse "0.9.0+build" = (⟨0, 9, 0, [], ["build"]⟩, none) ∧
    (⟨1, 0, 0, [], []⟩ : semver.Version).GT ⟨1, 0, 0, [⟨"alpha", 0, false⟩], []⟩ = true ∧
    (⟨1, 0, 0, [⟨"alpha", 0, false⟩], []⟩ : semver.Version).GT ⟨0, 9, 0, [], ["build"]⟩ =
      true ∧
    (⟨1, 0, 0, [], []⟩ : semver.Version).GT ⟨0, 9, 0, [], ["build"]⟩ = true :=
  ⟨by decide, by decide, by decide, by decide, by decide,
    (GT_is_semver_precedence "1.0.0" "1.0.0-alpha" "0.9.0+build" ⟨1, 0, 0, [], []⟩
      ⟨1, 0, 0, [⟨"alpha", 0, false⟩], []⟩ ⟨0, 9, 0, [], ["build"]⟩
      (by decide) (by decide) (by decide)).2.2.2.1 (by decide) (by decide)⟩

/-- C18: the update decision is monotone in the current version. For a fixed
successful provider response, when `Check` with current version `c` returns
`NeedsUpdate` true, so does `Check` with any `c2` lower than or equal to `c`;
and when it returns false for `c`, it returns false for any `c3` greater than
or equal to `c`. -/
theorem Check_monotone_in_current {σ : Type} (p : Provider σ) (c c2 c3 : semver.Version)
    (w w1 : σ) (L : LatestResponse) (h : p.Latest w = ((L, none), w1))
    (h2 : c2.LT c = true ∨ c2.Equals c = true)
    (h3 : c3.GT c = true ∨ c3.Equals c = true) :
    ∃ r r2 r3 : CheckResponse,
      Uptd.Check ⟨some p, c⟩ w = some ((r, none), w1) ∧
      Uptd.Check ⟨some p, c2⟩ w = some ((r2, none), w1) ∧
      Uptd.Check ⟨some p, c3⟩ w = some ((r3, none), w1) ∧
      (r.NeedsUpdate = true → r2.NeedsUpdate = true) ∧
      (r.NeedsUpdate = false → r3.NeedsUpdate = false) := by
  refine ⟨_, _, _, Check_of_Latest_ok p c w w1 L h, Check_of_Latest_ok p c2 w w1 L h,
    Check_of_Latest_ok p c3 w w1 L h, ?_, ?_⟩
  · simp only [Bool.and_eq_true, Bool.not_eq_true', and_imp]
    intro hgt hpre
    refine ⟨?_, hpre⟩
    simp only [semver.Version.GT, semver.Version.LT, semver.Version.Equals,
      beq_iff_eq] at hgt h2 ⊢
    have r := semver.Version_Compare_range L.Version c2
    have t := semver.Version_Compare_le_trans L.Version c2 c
    omega
  · simp only [Bool.and_eq_false_imp, Bool.not_eq_false', Bool.and_eq_false_iff]
    intro hn hg3
    by_cases hg : L.Version.GT c = true
    · exact hn hg
    · exfalso
      simp only [semver.Version.GT, semver.Version.Equals, beq_iff_eq] at hg hg3 h3
      have r := semver.Version_Compare_range L.Version c
      have t := semver.Version_Compare_le_trans L.Version c c3
      have sw := semver.Version_Compare_swap c c3
      omega

/-- C18 at the remote `2.0.0` with current versions `1.5.0`, `1.0.0` and `3.0.0`. -/
theorem Check_monotone_in_current_witness :
    (mockProvider ⟨newSemver "2.0.0", "http://host/path/version", false⟩ none).Latest () =
      ((⟨newSemver "2.0.0", "http://host/path/version", false⟩, none), ()) ∧
    ((newSemver "1.0.0").LT (newSemver "1.5.0") = true ∨
      (newSemver "1.0.0").Equals (newSemver "1.5.0") = true) ∧
    ((newSemver "3.0.0").GT (newSemver "1.5.0") = true ∨
      (newSemver "3.0.0").Equals (newSemver "1.5.0") = true) ∧
    ∃ r r2 r3 : CheckResponse,
      Uptd.Check ⟨some (mockProvider ⟨newSemver "2.0.0", "http://host/path/version", false⟩
        none), newSemver "1.5.0"⟩ () = some ((r, none), ()) ∧
      Uptd.Check ⟨some (mockProvider ⟨newSemver "2.0.0", "http://host/path/version", false⟩
        none), newSemver "1.0.0"⟩ () = some ((r2, none), ()) ∧
      Uptd.Check ⟨some (mockProvider ⟨newSemver "2.0.0", "http://host/path/version", false⟩
        none), newSemver "3.0.0"⟩ () = some ((r3, none), ()) ∧
      (r.NeedsUpdate = true → r2.NeedsUpdate = true) ∧
      (r.NeedsUpdate = false → r3.NeedsUpdate = false) :=
  ⟨rfl, Or.inl (by decide), Or.inl (by decide),
    Check_monotone_in_current _ (newSemver "1.5.0") (newSemver "1.0.0") (newSemver "3.0.0")
      () () ⟨newSemver "2.0.0", "http://host/path/version", false⟩ rfl
      (Or.inl (by decide)) (Or.inl (by decide))⟩

end uptd
